import Mathlib

/-!
Shallow embedding of the watch-session tracking state machine of the
NYU Instagram feed video study.

Three tracker variants from the repository are embedded:

* `GA4YT`  — the GA4 YouTube-iframe tracker (the IIFE holding `sessionState`,
  `handleVideoPlay`, `handleVideoPause`, `handleVideoEnd`, `checkMilestones`
  and `reportFinalResults`);
* `MongoFV` — `js/mongo-feed-video-tracker.js` (the `videoState` object with
  `onPlayerStateChange`, `trackVideoProgress`, `checkMilestones`,
  `handleUnload`, `trackVideoSummary`);
* `GA4DOM` — the GA4 DOM-video tracker (the file holding the `sessionState`
  object with `handleVideoPlay`, `handleVideoPause`, `handleVideoEnd`).

Conventions of the embedding:

* JS numbers are rationals (`ℚ`); all arithmetic used by the trackers
  (+, -, *, /, comparisons, `Math.max`, `Math.min`, `Math.round`) is exact
  on the values that occur.
* `Math.round` is `jround` below (floor of x + 1/2, i.e. round half up, the
  JS behaviour).
* `Date.now()` reads and `player.getCurrentTime()` reads are inputs of each
  step, supplied by the trace.
* The event sink (`GALite.track` / `MongoTracker.track`) is modelled as
  always available; an emission is an element of the step's output list.
  Commands sent to the playback source (`pauseVideo`, `unMute`) are also
  output-list elements, distinguished from sink events by `isSinkEv` /
  `isMSinkEv`.
* Constant payload fields (`video_id`, `study_id`, `condition`, flag fields
  derivable from the milestone list) are omitted from the event payloads.
-/

/-- JS `Math.round`: round half toward positive infinity. -/
def jround (q : ℚ) : ℤ := ⌊q + 1/2⌋

/-- Number of elements of a list satisfying a Boolean predicate. -/
def countP {α : Type} (p : α → Bool) (l : List α) : ℕ := (l.filter p).length

theorem countP_append {α : Type} (p : α → Bool) (l₁ l₂ : List α) :
    countP p (l₁ ++ l₂) = countP p l₁ + countP p l₂ := by
  simp [countP, List.filter_append]

theorem countP_nil {α : Type} (p : α → Bool) : countP p ([] : List α) = 0 := rfl

/-- YouTube / DOM player states forwarded to the tracker callbacks
(`YT.PlayerState.PLAYING/PAUSED/ENDED`; `buffering` stands for every
other state, on which the trackers do nothing). -/
inductive PlayerState where
  | playing
  | paused
  | ended
  | buffering
deriving DecidableEq

/-- Events and source commands produced by the two GA4 tracker variants. -/
inductive GOut where
  | videoStart (videoDuration : ℚ) (playCount : ℕ)
  | videoPlay (currentTime : ℚ) (playCount : ℕ) (isReplay : Bool)
  | videoPause (currentTime : ℚ) (sessionWatchTime : ℤ) (totalWatchTime : ℤ)
  | videoProgress (progressPercentage : ℕ) (currentTimeSeconds : ℤ)
      (playCountAtMilestone : ℕ) (totalWatchTimeSoFar : ℤ)
  | videoSessionComplete (totalWatchTimeSeconds : ℤ) (playCount : ℕ)
      (completionCount : ℕ) (milestonesReached : List ℕ)
      (maxProgressPercent : ℤ) (videoDuration : ℚ) (completionRatePercent : ℤ)
  | pauseVideoCmd
deriving DecidableEq

/-- Predicate: the output is a `video_session_complete` sink event. -/
def isSessionCompleteEv : GOut → Bool
  | GOut.videoSessionComplete .. => true
  | _ => false

/-- Predicate: the output is a `video_start` sink event. -/
def isStartEv : GOut → Bool
  | GOut.videoStart .. => true
  | _ => false

/-- Predicate: the output is a `video_play` sink event. -/
def isPlayEv : GOut → Bool
  | GOut.videoPlay .. => true
  | _ => false

/-- Predicate: the output is a `video_progress` sink event for milestone `m`. -/
def isProgressEv (m : ℕ) : GOut → Bool
  | GOut.videoProgress p _ _ _ => p == m
  | _ => false

/-- Predicate: the output is a `video_progress` sink event (any milestone). -/
def isAnyProgressEv : GOut → Bool
  | GOut.videoProgress .. => true
  | _ => false

/-- Predicate: the output is a sink event (everything except the
`pauseVideo()` command sent back to the playback source). -/
def isSinkEv : GOut → Bool
  | GOut.pauseVideoCmd => false
  | _ => true

/-- The `completion_rate_percent` values of the `video_session_complete`
events in a list of outputs. -/
def sessionCompleteRates (l : List GOut) : List ℤ :=
  l.filterMap fun o =>
    match o with
    | GOut.videoSessionComplete _ _ _ _ _ _ r => some r
    | _ => none

namespace GA4YT

/-- The `sessionState` object of the GA4 YouTube tracker.
`currentPlayStartTime` and `sessionStartTime` hold `Date.now()` values in
milliseconds (`none` = JS `null`); `duration` is set once from
`player.getDuration()` in `onPlayerReady` before tracking can be enabled and
is never reassigned, so it is a fixed field of the initial state here.
`lastReportedTime` is declared in the source and never updated. -/
structure SessionState where
  isTrackingEnabled : Bool
  totalWatchTimeSeconds : ℚ
  sessionStartTime : Option ℚ
  currentPlayStartTime : Option ℚ
  duration : ℚ
  hasStartedOnce : Bool
  playCount : ℕ
  lastReportedTime : ℚ
  hasReportedFinalResults : Bool
  milestonesReached : Finset ℕ
  completionCount : ℕ
  maxProgressReached : ℚ
deriving DecidableEq

/-- Source `handleVideoPlay(currentTime)`: increments `playCount`, records
`Date.now()` in `currentPlayStartTime`, on the first play sets
`hasStartedOnce` (and `sessionStartTime`) and emits `video_start`, and always
emits `video_play` with `is_replay: playCount > 1`. -/
def handleVideoPlay (s : SessionState) (now currentTime : ℚ) :
    SessionState × List GOut :=
  let s1 := { s with playCount := s.playCount + 1, currentPlayStartTime := some now }
  if s1.hasStartedOnce = false then
    let s2 := { s1 with hasStartedOnce := true, sessionStartTime := some now }
    (s2, [GOut.videoStart s2.duration s2.playCount,
          GOut.videoPlay currentTime s2.playCount (decide (1 < s2.playCount))])
  else
    (s1, [GOut.videoPlay currentTime s1.playCount (decide (1 < s1.playCount))])

/-- Source `handleVideoPause(currentTime)`: returns unless
`currentPlayStartTime` is truthy (JS `!x` is true for `null` and for `0`),
else adds `max(0, (Date.now() - currentPlayStartTime)/1000)` to
`totalWatchTimeSeconds`, clears `currentPlayStartTime` and emits
`video_pause`. -/
def handleVideoPause (s : SessionState) (now currentTime : ℚ) :
    SessionState × List GOut :=
  match s.currentPlayStartTime with
  | none => (s, [])
  | some start =>
    if start = 0 then (s, [])
    else
      let watchTimeMs := now - start
      let s1 := { s with
        totalWatchTimeSeconds := s.totalWatchTimeSeconds + max 0 (watchTimeMs / 1000),
        currentPlayStartTime := none }
      (s1, [GOut.videoPause currentTime (jround (watchTimeMs / 1000))
              (jround s1.totalWatchTimeSeconds)])

/-- Source `handleVideoEnd(currentTime)`: increments `completionCount`,
adds milestone 100 and emits `video_progress` if 100 was not yet reached,
and clears `currentPlayStartTime`.  It performs no watch-time
accumulation. -/
def handleVideoEnd (s : SessionState) (currentTime : ℚ) :
    SessionState × List GOut :=
  let s1 := { s with completionCount := s.completionCount + 1 }
  if 100 ∈ s1.milestonesReached then
    ({ s1 with currentPlayStartTime := none }, [])
  else
    ({ s1 with milestonesReached := insert 100 s1.milestonesReached,
               currentPlayStartTime := none },
     [GOut.videoProgress 100 (jround currentTime) s1.playCount
        (jround s1.totalWatchTimeSeconds)])

/-- The `[25, 50, 75].forEach(...)` loop inside the source `checkMilestones`:
for each threshold in order, if `progressPercent >= milestone` and the
milestone is not yet in the set, add it and emit `video_progress`
(`sendMilestoneEvent` reads the play count and the running total). -/
def sweep (progressPercent currentTime : ℚ) (playCount : ℕ) (total : ℚ) :
    List ℕ → Finset ℕ → Finset ℕ × List GOut
  | [], reached => (reached, [])
  | m :: rest, reached =>
    if (m : ℚ) ≤ progressPercent ∧ m ∉ reached then
      let r := sweep progressPercent currentTime playCount total rest (insert m reached)
      (r.1, GOut.videoProgress m (jround currentTime) playCount (jround total) :: r.2)
    else
      sweep progressPercent currentTime playCount total rest reached

/-- Source `checkMilestones` (the 1-second poll body): returns if tracking is
disabled, computes `progressPercent = currentTime / duration * 100`, raises
`maxProgressReached` to `progressPercent` (a percent value!) when larger,
then runs the 25/50/75 threshold loop. -/
def checkMilestones (s : SessionState) (currentTime : ℚ) :
    SessionState × List GOut :=
  if s.isTrackingEnabled = false then (s, [])
  else
    let progressPercent := currentTime / s.duration * 100
    let s1 :=
      if s.maxProgressReached < progressPercent then
        { s with maxProgressReached := progressPercent }
      else s
    let r := sweep progressPercent currentTime s1.playCount s1.totalWatchTimeSeconds
      [25, 50, 75] s1.milestonesReached
    ({ s1 with milestonesReached := r.1 }, r.2)

/-- Source `onPlayerStateChange(event)`: while tracking is disabled the
session state is untouched and a `pauseVideo()` command is sent back to the
player if the state is PLAYING; otherwise dispatches on the player state. -/
def onPlayerStateChange (s : SessionState) (ps : PlayerState) (now currentTime : ℚ) :
    SessionState × List GOut :=
  if s.isTrackingEnabled = false then
    if ps = PlayerState.playing then (s, [GOut.pauseVideoCmd]) else (s, [])
  else
    match ps with
    | PlayerState.playing => handleVideoPlay s now currentTime
    | PlayerState.paused => handleVideoPause s now currentTime
    | PlayerState.ended => handleVideoEnd s currentTime
    | PlayerState.buffering => (s, [])

/-- The trailing-interval accumulation performed by `reportFinalResults`:
`if (sessionState.currentPlayStartTime) totalWatchTimeSeconds +=
Math.max(0, (Date.now() - currentPlayStartTime)/1000)` (truthiness check,
as in `handleVideoPause`). -/
def trailingTotal (s : SessionState) (now : ℚ) : ℚ :=
  match s.currentPlayStartTime with
  | none => s.totalWatchTimeSeconds
  | some start =>
    if start = 0 then s.totalWatchTimeSeconds
    else s.totalWatchTimeSeconds + max 0 ((now - start) / 1000)

/-- Source `reportFinalResults` (registered on `beforeunload`, `pagehide` and
`visibilitychange → hidden`): no-op unless tracking is enabled, the video has
started once and `hasReportedFinalResults` is still false; sets the flag
first, accumulates the trailing interval, and emits one
`video_session_complete` only when the rounded total is positive.
`max_progress_percent` divides by `duration` without a zero guard (JS yields
`NaN` there; the emission requires a positive rounded total).
`currentPlayStartTime` is not cleared. -/
def reportFinalResults (s : SessionState) (now : ℚ) : SessionState × List GOut :=
  if s.isTrackingEnabled = false ∨ s.hasStartedOnce = false ∨
      s.hasReportedFinalResults = true then
    (s, [])
  else
    let s1 := { s with hasReportedFinalResults := true }
    let s2 := { s1 with totalWatchTimeSeconds := trailingTotal s1 now }
    let finalWatchTimeSeconds := jround s2.totalWatchTimeSeconds
    let completionRate : ℚ :=
      if 0 < s2.duration then min 100 (s2.maxProgressReached / s2.duration * 100)
      else 0
    if 0 < finalWatchTimeSeconds then
      (s2, [GOut.videoSessionComplete finalWatchTimeSeconds s2.playCount
              s2.completionCount (s2.milestonesReached.sort (· ≤ ·))
              (jround (s2.maxProgressReached / s2.duration * 100))
              s2.duration (jround completionRate)])
    else (s2, [])

/-- One externally triggered step of the GA4 YouTube tracker:
a player state change, a milestone poll tick, a teardown signal
(`beforeunload`, `pagehide` or `visibilitychange → hidden` all invoke
`reportFinalResults`), or the tap-to-start gesture.  A poll tick can only
occur when `setupMilestoneTracking` armed the poll, which it refuses to do
when `duration <= 0`; `duration` is never reassigned, so the guard is
equivalent at tick time. -/
inductive Input where
  | stateChange (ps : PlayerState) (now currentTime : ℚ)
  | pollTick (currentTime : ℚ)
  | teardown (now : ℚ)
  | enableTracking
deriving DecidableEq

/-- Step function of the GA4 YouTube tracker. -/
def step (s : SessionState) : Input → SessionState × List GOut
  | Input.stateChange ps now ct => onPlayerStateChange s ps now ct
  | Input.pollTick ct => if s.duration ≤ 0 then (s, []) else checkMilestones s ct
  | Input.teardown now => reportFinalResults s now
  | Input.enableTracking => ({ s with isTrackingEnabled := true }, [])

/-- Run a trace of inputs, concatenating the emitted outputs. -/
def run (s : SessionState) : List Input → SessionState × List GOut
  | [] => (s, [])
  | i :: tr =>
    let r1 := step s i
    let r2 := run r1.1 tr
    (r2.1, r1.2 ++ r2.2)

/-- The module-load `sessionState` (all fields zeroed / false / null), with
`duration` the value `onPlayerReady` reads from the source metadata. -/
def initState (d : ℚ) : SessionState where
  isTrackingEnabled := false
  totalWatchTimeSeconds := 0
  sessionStartTime := none
  currentPlayStartTime := none
  duration := d
  hasStartedOnce := false
  playCount := 0
  lastReportedTime := 0
  hasReportedFinalResults := false
  milestonesReached := ∅
  completionCount := 0
  maxProgressReached := 0

theorem run_nil (s : SessionState) : run s [] = (s, []) := rfl

theorem run_cons (s : SessionState) (i : Input) (tr : List Input) :
    run s (i :: tr) =
      ((run (step s i).1 tr).1, (step s i).2 ++ (run (step s i).1 tr).2) := rfl

end GA4YT

/-- Events and source commands produced by `mongo-feed-video-tracker.js`. -/
inductive MOut where
  | feedVideoStart (videoDuration : ℚ)
  | feedVideoWatchTime (watchTimeSeconds : ℚ)
  | feedVideoProgress (milestone : ℕ) (currentTime : ℤ) (totalWatchTime : ℤ)
  | feedVideoComplete (totalWatchTimeSeconds : ℤ) (videoDuration : ℚ)
      (completionRate : ℤ) (playCount : ℕ) (completionCount : ℕ)
      (milestonesReached : List ℕ)
  | feedVideoSummary (totalWatchTimeSeconds : ℤ) (videoDuration : ℚ)
      (completionRate : ℤ) (playCount : ℕ) (completionCount : ℕ)
      (milestonesReached : List ℕ) (maxProgressReached : ℤ)
  | unMuteCmd
deriving DecidableEq

/-- Predicate: the output is a `feed_video_summary` sink event. -/
def isSummaryEv : MOut → Bool
  | MOut.feedVideoSummary .. => true
  | _ => false

/-- Predicate: the output is a `feed_video_progress` sink event for
milestone `m`. -/
def isMProgressEv (m : ℕ) : MOut → Bool
  | MOut.feedVideoProgress p _ _ => p == m
  | _ => false

/-- Predicate: the output is a `feed_video_progress` sink event. -/
def isAnyMProgressEv : MOut → Bool
  | MOut.feedVideoProgress .. => true
  | _ => false

/-- Predicate: the output is a sink event (everything except the `unMute()`
command sent back to the playback source). -/
def isMSinkEv : MOut → Bool
  | MOut.unMuteCmd => false
  | _ => true

/-- Milestone values of the `feed_video_progress` events in a list of
outputs, in emission order. -/
def mongoMilestonesOf (l : List MOut) : List ℕ :=
  l.filterMap fun o =>
    match o with
    | MOut.feedVideoProgress p _ _ => some p
    | _ => none

namespace MongoFV

/-- The `videoState` object of `js/mongo-feed-video-tracker.js`.
`currentPlayStartTime` here holds a player *position* in seconds (the source
assigns `player.getCurrentTime()` to it and compares with `!== null`).
`duration` is set once from `event.target.getDuration()` in `onPlayerReady`
and never reassigned.  `lastReportedTime` is declared and never updated. -/
structure VideoState where
  isTrackingEnabled : Bool
  totalWatchTimeSeconds : ℚ
  sessionStartTime : Option ℚ
  currentPlayStartTime : Option ℚ
  duration : ℚ
  hasStartedOnce : Bool
  playCount : ℕ
  lastReportedTime : ℚ
  milestonesReached : Finset ℕ
  completionCount : ℕ
  maxProgressReached : ℚ
deriving DecidableEq

/-- Source `trackVideoProgress(milestone)`: returns if the milestone is
already in `milestonesReached`, else adds it and emits
`feed_video_progress`. -/
def trackVideoProgress (s : VideoState) (milestone : ℕ) (currentTime : ℚ) :
    VideoState × List MOut :=
  if milestone ∈ s.milestonesReached then (s, [])
  else
    ({ s with milestonesReached := insert milestone s.milestonesReached },
     [MOut.feedVideoProgress milestone (jround currentTime)
        (jround s.totalWatchTimeSeconds)])

/-- Source `trackVideoComplete()`: assembles the `feed_video_complete`
payload; `completion_rate` is computed from the *total watch time* (guarded
to 0 when `duration` is 0) and clamped by `Math.min(100, Math.round(...))`. -/
def trackVideoComplete (s : VideoState) : List MOut :=
  let completionRate : ℚ :=
    if 0 < s.duration then s.totalWatchTimeSeconds / s.duration * 100 else 0
  [MOut.feedVideoComplete (jround s.totalWatchTimeSeconds) s.duration
    (min 100 (jround completionRate)) s.playCount s.completionCount
    (s.milestonesReached.sort (· ≤ ·))]

/-- Source `trackVideoSummary()`: assembles the `feed_video_summary` payload;
`completion_rate` is computed from the *total watch time* (guarded to 0 when
`duration` is 0) and clamped by `Math.min(100, Math.round(...))`;
`max_progress_reached` is the rounded high-water position in seconds.  It is
emitted unconditionally (no zero-watch-time skip and no write-once flag). -/
def trackVideoSummary (s : VideoState) : List MOut :=
  let completionRate : ℚ :=
    if 0 < s.duration then s.totalWatchTimeSeconds / s.duration * 100 else 0
  [MOut.feedVideoSummary (jround s.totalWatchTimeSeconds) s.duration
    (min 100 (jround completionRate)) s.playCount s.completionCount
    (s.milestonesReached.sort (· ≤ ·)) (jround s.maxProgressReached)]

/-- Source `onPlayerStateChange(event)`: a bare `return` while tracking is
disabled (no pause command is sent back, unlike the GA4 variants).  PLAYING
unmutes a muted player, emits `feed_video_start` once, increments
`playCount` and records the current *position*.  PAUSED accumulates the
position delta only when it is positive, and only then clears
`currentPlayStartTime` and emits `feed_video_watch_time`.  ENDED accumulates
a positive delta, always clears `currentPlayStartTime`, increments
`completionCount`, raises `maxProgressReached` and emits
`feed_video_complete`. -/
def onPlayerStateChange (s : VideoState) (ps : PlayerState)
    (now currentTime : ℚ) (playerMuted : Bool) : VideoState × List MOut :=
  if s.isTrackingEnabled = false then (s, [])
  else
    match ps with
    | PlayerState.playing =>
      let outs0 : List MOut := if playerMuted then [MOut.unMuteCmd] else []
      let r1 : VideoState × List MOut :=
        if s.hasStartedOnce = false then
          ({ s with hasStartedOnce := true, sessionStartTime := some now },
           [MOut.feedVideoStart s.duration])
        else (s, [])
      ({ r1.1 with playCount := r1.1.playCount + 1,
                   currentPlayStartTime := some currentTime },
       outs0 ++ r1.2)
    | PlayerState.paused =>
      match s.currentPlayStartTime with
      | none => (s, [])
      | some start =>
        let watchedDuration := currentTime - start
        if 0 < watchedDuration then
          let s1 := { s with
            totalWatchTimeSeconds := s.totalWatchTimeSeconds + watchedDuration,
            currentPlayStartTime := none }
          (s1, [MOut.feedVideoWatchTime s1.totalWatchTimeSeconds])
        else (s, [])
    | PlayerState.ended =>
      let s1 :=
        match s.currentPlayStartTime with
        | none => s
        | some start =>
          let watchedDuration := currentTime - start
          let s2 :=
            if 0 < watchedDuration then
              { s with totalWatchTimeSeconds := s.totalWatchTimeSeconds + watchedDuration }
            else s
          { s2 with currentPlayStartTime := none }
      let s3 := { s1 with completionCount := s1.completionCount + 1 }
      let s4 :=
        if s3.maxProgressReached < currentTime then
          { s3 with maxProgressReached := currentTime }
        else s3
      (s4, trackVideoComplete s4)
    | PlayerState.buffering => (s, [])

/-- The `[25, 50, 75, 100].forEach(...)` loop of the source
`checkMilestones`: for each milestone in order, if the rounded progress
percent is at least the milestone and the milestone is not yet reached,
call `trackVideoProgress`. -/
def progressSweep (progressPercent : ℤ) (currentTime : ℚ) :
    List ℕ → VideoState → VideoState × List MOut
  | [], s => (s, [])
  | m :: rest, s =>
    if (m : ℤ) ≤ progressPercent ∧ m ∉ s.milestonesReached then
      let r1 := trackVideoProgress s m currentTime
      let r2 := progressSweep progressPercent currentTime rest r1.1
      (r2.1, r1.2 ++ r2.2)
    else
      progressSweep progressPercent currentTime rest s

/-- Source `checkMilestones` (the 1-second poll body): returns if tracking is
disabled; `progressPercent` is `Math.round(currentTime / duration * 100)`
guarded to 0 when `duration` is 0; raises `maxProgressReached` to the
current *position* when larger; then runs the milestone loop. -/
def checkMilestones (s : VideoState) (currentTime : ℚ) :
    VideoState × List MOut :=
  if s.isTrackingEnabled = false then (s, [])
  else
    let progressPercent : ℤ :=
      if 0 < s.duration then jround (currentTime / s.duration * 100) else 0
    let s1 :=
      if s.maxProgressReached < currentTime then
        { s with maxProgressReached := currentTime }
      else s
    progressSweep progressPercent currentTime [25, 50, 75, 100] s1

/-- Source `handleUnload` (registered on `beforeunload` and `pagehide`):
no-op unless tracking is enabled and the video started once; accumulates a
positive trailing position delta (without clearing `currentPlayStartTime`)
and calls `trackVideoSummary`.  There is no write-once guard: every
invocation that passes the two checks emits a summary. -/
def handleUnload (s : VideoState) (currentTime : ℚ) : VideoState × List MOut :=
  if s.isTrackingEnabled = false ∨ s.hasStartedOnce = false then (s, [])
  else
    let s1 :=
      match s.currentPlayStartTime with
      | none => s
      | some start =>
        let watchedDuration := currentTime - start
        if 0 < watchedDuration then
          { s with totalWatchTimeSeconds := s.totalWatchTimeSeconds + watchedDuration }
        else s
    (s1, trackVideoSummary s1)

/-- The `visibilitychange` listener of `initTracking`: when the document
becomes hidden and `currentPlayStartTime !== null`, accumulate a positive
position delta and clear `currentPlayStartTime`; it emits nothing and does
not call `handleUnload`. -/
def visibilityHidden (s : VideoState) (currentTime : ℚ) :
    VideoState × List MOut :=
  match s.currentPlayStartTime with
  | none => (s, [])
  | some start =>
    let watchedDuration := currentTime - start
    let s1 :=
      if 0 < watchedDuration then
        { s with totalWatchTimeSeconds := s.totalWatchTimeSeconds + watchedDuration }
      else s
    ({ s1 with currentPlayStartTime := none }, [])

/-- One externally triggered step of the Mongo feed-video tracker: a player
state change (carrying the wall clock, the player position and the player's
mute flag), a milestone poll tick, an unload signal (`beforeunload` or
`pagehide`, both invoke `handleUnload`), the `visibilitychange → hidden`
listener, or the tap-to-start gesture (`enableTracking`, whose
`unMute()`/`playVideo()` calls are source commands outside the session
state). -/
inductive MInput where
  | stateChange (ps : PlayerState) (now currentTime : ℚ) (playerMuted : Bool)
  | pollTick (currentTime : ℚ)
  | unload (currentTime : ℚ)
  | visibilityHiddenSig (currentTime : ℚ)
  | enableTracking
deriving DecidableEq

/-- Step function of the Mongo feed-video tracker. -/
def step (s : VideoState) : MInput → VideoState × List MOut
  | MInput.stateChange ps now ct muted => onPlayerStateChange s ps now ct muted
  | MInput.pollTick ct => checkMilestones s ct
  | MInput.unload ct => handleUnload s ct
  | MInput.visibilityHiddenSig ct => visibilityHidden s ct
  | MInput.enableTracking => ({ s with isTrackingEnabled := true }, [])

/-- Run a trace of inputs, concatenating the emitted outputs. -/
def run (s : VideoState) : List MInput → VideoState × List MOut
  | [] => (s, [])
  | i :: tr =>
    let r1 := step s i
    let r2 := run r1.1 tr
    (r2.1, r1.2 ++ r2.2)

/-- The module-load `videoState` (all fields zeroed / false / null), with
`duration` the value `onPlayerReady` reads from the source metadata. -/
def initState (d : ℚ) : VideoState where
  isTrackingEnabled := false
  totalWatchTimeSeconds := 0
  sessionStartTime := none
  currentPlayStartTime := none
  duration := d
  hasStartedOnce := false
  playCount := 0
  lastReportedTime := 0
  milestonesReached := ∅
  completionCount := 0
  maxProgressReached := 0

theorem mrun_nil (s : VideoState) : run s [] = (s, []) := rfl

theorem mrun_cons (s : VideoState) (i : MInput) (tr : List MInput) :
    run s (i :: tr) =
      ((run (step s i).1 tr).1, (step s i).2 ++ (run (step s i).1 tr).2) := rfl

end MongoFV

namespace GA4DOM

/-- The `sessionState` object of the GA4 DOM-video tracker (the variant that
listens directly on the `<video>` element).  `currentPlayStartTime` holds
`Date.now()` milliseconds. -/
structure DomState where
  isInitialized : Bool
  isTrackingEnabled : Bool
  hasStartedOnce : Bool
  hasReportedFinalResults : Bool
  totalWatchTimeSeconds : ℚ
  currentPlayStartTime : Option ℚ
  duration : ℚ
  maxWatched : ℚ
  playCount : ℕ
  completionCount : ℕ
  milestonesReached : Finset ℕ
  maxProgressReached : ℚ
  isMuted : Bool
deriving DecidableEq

/-- Source `handleVideoPlay()`: while tracking is disabled it calls
`videoElement.pause()` and returns; otherwise increments `playCount`,
records `Date.now()`, emits `video_start` on the first play (setting
`hasStartedOnce`) and always emits `video_play` with
`is_replay: playCount > 1`. -/
def handleVideoPlay (s : DomState) (now currentTime : ℚ) :
    DomState × List GOut :=
  if s.isTrackingEnabled = false then (s, [GOut.pauseVideoCmd])
  else
    let s1 := { s with playCount := s.playCount + 1, currentPlayStartTime := some now }
    if s1.hasStartedOnce = false then
      let s2 := { s1 with hasStartedOnce := true }
      (s2, [GOut.videoStart s2.duration s2.playCount,
            GOut.videoPlay currentTime s2.playCount (decide (1 < s2.playCount))])
    else
      (s1, [GOut.videoPlay currentTime s1.playCount (decide (1 < s1.playCount))])

/-- Source `handleVideoPause()`: returns unless tracking is enabled and
`currentPlayStartTime` is truthy; else adds the clamped interval, clears
`currentPlayStartTime` and emits `video_pause`. -/
def handleVideoPause (s : DomState) (now currentTime : ℚ) :
    DomState × List GOut :=
  if s.isTrackingEnabled = false then (s, [])
  else
    match s.currentPlayStartTime with
    | none => (s, [])
    | some start =>
      if start = 0 then (s, [])
      else
        let watchTimeMs := now - start
        let s1 := { s with
          totalWatchTimeSeconds := s.totalWatchTimeSeconds + max 0 (watchTimeMs / 1000),
          currentPlayStartTime := none }
        (s1, [GOut.videoPause currentTime (jround (watchTimeMs / 1000))
                (jround s1.totalWatchTimeSeconds)])

/-- Source `handleVideoEnd()`: returns while tracking is disabled; else
increments `completionCount`, adds milestone 100 and emits `video_progress`
if 100 was not yet reached, and clears `currentPlayStartTime`.  It performs
no watch-time accumulation. -/
def handleVideoEnd (s : DomState) (currentTime : ℚ) : DomState × List GOut :=
  if s.isTrackingEnabled = false then (s, [])
  else
    let s1 := { s with completionCount := s.completionCount + 1 }
    if 100 ∈ s1.milestonesReached then
      ({ s1 with currentPlayStartTime := none }, [])
    else
      ({ s1 with milestonesReached := insert 100 s1.milestonesReached,
                 currentPlayStartTime := none },
       [GOut.videoProgress 100 (jround currentTime) s1.playCount
          (jround s1.totalWatchTimeSeconds)])

end GA4DOM

/-! ### Counting and potential-function infrastructure -/

theorem countP_cons {α : Type} (p : α → Bool) (a : α) (l : List α) :
    countP p (a :: l) = (if p a then 1 else 0) + countP p l := by
  simp [countP, List.filter_cons]
  split <;> simp [Nat.add_comm]

/-- Potential of a milestone set with respect to one milestone value: 1 while
the value is still missing, 0 once it is present. -/
def chiF (m : ℕ) (t : Finset ℕ) : ℕ := if m ∈ t then 0 else 1

namespace GA4YT

theorem sweep_fst_subset (pp ct : ℚ) (pc : ℕ) (tot : ℚ) :
    ∀ (ms : List ℕ) (reached : Finset ℕ),
      reached ⊆ (sweep pp ct pc tot ms reached).1 := by
  intro ms
  induction ms with
  | nil => intro reached; simp [sweep]
  | cons a rest ih =>
    intro reached
    simp only [sweep]
    split
    · exact (Finset.subset_insert a reached).trans (ih (insert a reached))
    · exact ih reached

theorem sweep_chi (pp ct : ℚ) (pc : ℕ) (tot : ℚ) (m : ℕ) :
    ∀ (ms : List ℕ) (reached : Finset ℕ),
      countP (isProgressEv m) (sweep pp ct pc tot ms reached).2 +
        chiF m (sweep pp ct pc tot ms reached).1 ≤ chiF m reached := by
  intro ms
  induction ms with
  | nil => intro reached; simp [sweep, countP]
  | cons a rest ih =>
    intro reached
    simp only [sweep]
    split
    · rename_i h
      rw [countP_cons]
      by_cases hm : a = m
      · subst hm
        have h1 : chiF a reached = 1 := by simp [chiF, h.2]
        have h2 := ih (insert a reached)
        have h3 : chiF a (insert a reached) = 0 := by simp [chiF]
        simp only [isProgressEv, beq_self_eq_true, if_true]
        omega
      · have h2 := ih (insert a reached)
        have h3 : chiF m (insert a reached) = chiF m reached := by
          simp [chiF, Finset.mem_insert, hm, Ne.symm hm]
        have hba : isProgressEv m (GOut.videoProgress a (jround ct) pc (jround tot)) = false := by
          simp [isProgressEv, hm]
        simp only [hba, Bool.false_eq_true, if_false]
        omega
    · exact ih reached

theorem sweep_countP_zero (pp ct : ℚ) (pc : ℕ) (tot : ℚ) (p : GOut → Bool)
    (hp : ∀ a b c d, p (GOut.videoProgress a b c d) = false) :
    ∀ (ms : List ℕ) (reached : Finset ℕ),
      countP p (sweep pp ct pc tot ms reached).2 = 0 := by
  intro ms
  induction ms with
  | nil => intro reached; simp [sweep, countP]
  | cons a rest ih =>
    intro reached
    simp only [sweep]
    split
    · rw [countP_cons, hp]
      simp [ih (insert a reached)]
    · exact ih reached

theorem run_potential (p : GOut → Bool) (φ : SessionState → ℕ)
    (hstep : ∀ s i, countP p (step s i).2 + φ (step s i).1 ≤ φ s) :
    ∀ (tr : List Input) (s : SessionState),
      countP p (run s tr).2 + φ (run s tr).1 ≤ φ s := by
  intro tr
  induction tr with
  | nil => intro s; simp [run, countP]
  | cons i tr ih =>
    intro s
    have h1 := hstep s i
    have h2 := ih (step s i).1
    rw [run_cons, countP_append]
    dsimp only
    omega

end GA4YT

namespace MongoFV

theorem mrun_potential (p : MOut → Bool) (φ : VideoState → ℕ)
    (hstep : ∀ s i, countP p (step s i).2 + φ (step s i).1 ≤ φ s) :
    ∀ (tr : List MInput) (s : VideoState),
      countP p (run s tr).2 + φ (run s tr).1 ≤ φ s := by
  intro tr
  induction tr with
  | nil => intro s; simp [run, countP]
  | cons i tr ih =>
    intro s
    have h1 := hstep s i
    have h2 := ih (step s i).1
    rw [mrun_cons, countP_append]
    dsimp only
    omega

end MongoFV


/-! ### Canonical-form lemmas for the GA4 YouTube handlers -/

namespace GA4YT

theorem handleVideoPlay_eq (s : SessionState) (now ct : ℚ) :
    handleVideoPlay s now ct =
      if s.hasStartedOnce = false then
        ({ s with playCount := s.playCount + 1, currentPlayStartTime := some now,
                  hasStartedOnce := true, sessionStartTime := some now },
         [GOut.videoStart s.duration (s.playCount + 1),
          GOut.videoPlay ct (s.playCount + 1) (decide (1 < s.playCount + 1))])
      else
        ({ s with playCount := s.playCount + 1, currentPlayStartTime := some now },
         [GOut.videoPlay ct (s.playCount + 1) (decide (1 < s.playCount + 1))]) := by
  simp only [handleVideoPlay]

theorem handleVideoPause_none (s : SessionState) (now ct : ℚ)
    (h : s.currentPlayStartTime = none) : handleVideoPause s now ct = (s, []) := by
  simp [handleVideoPause, h]

theorem handleVideoPause_some (s : SessionState) (now ct start : ℚ)
    (h : s.currentPlayStartTime = some start) :
    handleVideoPause s now ct =
      if start = 0 then (s, [])
      else
        ({ s with totalWatchTimeSeconds :=
                    s.totalWatchTimeSeconds + max 0 ((now - start) / 1000),
                  currentPlayStartTime := none },
         [GOut.videoPause ct (jround ((now - start) / 1000))
            (jround (s.totalWatchTimeSeconds + max 0 ((now - start) / 1000)))]) := by
  simp only [handleVideoPause, h]

theorem handleVideoEnd_eq (s : SessionState) (ct : ℚ) :
    handleVideoEnd s ct =
      if 100 ∈ s.milestonesReached then
        ({ s with completionCount := s.completionCount + 1,
                  currentPlayStartTime := none }, [])
      else
        ({ s with completionCount := s.completionCount + 1,
                  milestonesReached := insert 100 s.milestonesReached,
                  currentPlayStartTime := none },
         [GOut.videoProgress 100 (jround ct) s.playCount
            (jround s.totalWatchTimeSeconds)]) := by
  simp only [handleVideoEnd]

theorem onPlayerStateChange_disabled (s : SessionState) (ps : PlayerState)
    (now ct : ℚ) (h : s.isTrackingEnabled = false) :
    onPlayerStateChange s ps now ct =
      if ps = PlayerState.playing then (s, [GOut.pauseVideoCmd]) else (s, []) := by
  simp [onPlayerStateChange, h]

theorem onPlayerStateChange_playing (s : SessionState) (now ct : ℚ)
    (h : s.isTrackingEnabled = true) :
    onPlayerStateChange s PlayerState.playing now ct = handleVideoPlay s now ct := by
  simp [onPlayerStateChange, h]

theorem onPlayerStateChange_paused (s : SessionState) (now ct : ℚ)
    (h : s.isTrackingEnabled = true) :
    onPlayerStateChange s PlayerState.paused now ct = handleVideoPause s now ct := by
  simp [onPlayerStateChange, h]

theorem onPlayerStateChange_ended (s : SessionState) (now ct : ℚ)
    (h : s.isTrackingEnabled = true) :
    onPlayerStateChange s PlayerState.ended now ct = handleVideoEnd s ct := by
  simp [onPlayerStateChange, h]

theorem onPlayerStateChange_buffering (s : SessionState) (now ct : ℚ)
    (h : s.isTrackingEnabled = true) :
    onPlayerStateChange s PlayerState.buffering now ct = (s, []) := by
  simp [onPlayerStateChange, h]

theorem checkMilestones_disabled (s : SessionState) (ct : ℚ)
    (h : s.isTrackingEnabled = false) : checkMilestones s ct = (s, []) := by
  simp [checkMilestones, h]

theorem checkMilestones_snd (s : SessionState) (ct : ℚ)
    (h : s.isTrackingEnabled = true) :
    (checkMilestones s ct).2 =
      (sweep (ct / s.duration * 100) ct s.playCount s.totalWatchTimeSeconds
        [25, 50, 75] s.milestonesReached).2 := by
  unfold checkMilestones
  rw [if_neg (by simp [h])]
  by_cases hm : s.maxProgressReached < ct / s.duration * 100 <;> simp [hm]

theorem checkMilestones_fst_milestones (s : SessionState) (ct : ℚ)
    (h : s.isTrackingEnabled = true) :
    (checkMilestones s ct).1.milestonesReached =
      (sweep (ct / s.duration * 100) ct s.playCount s.totalWatchTimeSeconds
        [25, 50, 75] s.milestonesReached).1 := by
  unfold checkMilestones
  rw [if_neg (by simp [h])]
  by_cases hm : s.maxProgressReached < ct / s.duration * 100 <;> simp [hm]

theorem checkMilestones_fst_fields (s : SessionState) (ct : ℚ) :
    (checkMilestones s ct).1.totalWatchTimeSeconds = s.totalWatchTimeSeconds ∧
    (checkMilestones s ct).1.currentPlayStartTime = s.currentPlayStartTime ∧
    (checkMilestones s ct).1.duration = s.duration ∧
    (checkMilestones s ct).1.hasStartedOnce = s.hasStartedOnce ∧
    (checkMilestones s ct).1.hasReportedFinalResults = s.hasReportedFinalResults ∧
    (checkMilestones s ct).1.isTrackingEnabled = s.isTrackingEnabled ∧
    (checkMilestones s ct).1.playCount = s.playCount ∧
    (checkMilestones s ct).1.completionCount = s.completionCount := by
  by_cases h : s.isTrackingEnabled = false
  · rw [checkMilestones_disabled s ct h]
    simp
  · unfold checkMilestones
    rw [if_neg h]
    by_cases hm : s.maxProgressReached < ct / s.duration * 100 <;> simp [hm]

end GA4YT

namespace GA4YT

theorem reportFinalResults_guard (s : SessionState) (now : ℚ)
    (h : s.isTrackingEnabled = false ∨ s.hasStartedOnce = false ∨
      s.hasReportedFinalResults = true) :
    reportFinalResults s now = (s, []) := by
  unfold reportFinalResults
  rw [if_pos h]

theorem reportFinalResults_active (s : SessionState) (now : ℚ)
    (h1 : s.isTrackingEnabled = true) (h2 : s.hasStartedOnce = true)
    (h3 : s.hasReportedFinalResults = false) :
    reportFinalResults s now =
      (if 0 < jround (trailingTotal s now) then
        ({ s with hasReportedFinalResults := true,
                  totalWatchTimeSeconds := trailingTotal s now },
         [GOut.videoSessionComplete (jround (trailingTotal s now)) s.playCount
            s.completionCount (s.milestonesReached.sort (· ≤ ·))
            (jround (s.maxProgressReached / s.duration * 100)) s.duration
            (jround (if 0 < s.duration then
              min 100 (s.maxProgressReached / s.duration * 100) else 0))])
      else
        ({ s with hasReportedFinalResults := true,
                  totalWatchTimeSeconds := trailingTotal s now }, [])) := by
  unfold reportFinalResults
  rw [if_neg (by simp [h1, h2, h3])]
  rfl

end GA4YT

/-! ### Canonical-form lemmas for the Mongo feed-video handlers -/

namespace MongoFV

theorem mongo_stateChange_disabled (s : VideoState) (ps : PlayerState)
    (now ct : ℚ) (muted : Bool) (h : s.isTrackingEnabled = false) :
    onPlayerStateChange s ps now ct muted = (s, []) := by
  simp [onPlayerStateChange, h]

theorem onPlayerStateChange_playing_eq (s : VideoState) (now ct : ℚ)
    (muted : Bool) (h : s.isTrackingEnabled = true) :
    onPlayerStateChange s PlayerState.playing now ct muted =
      if s.hasStartedOnce = false then
        ({ s with hasStartedOnce := true, sessionStartTime := some now,
                  playCount := s.playCount + 1, currentPlayStartTime := some ct },
         (if muted then [MOut.unMuteCmd] else []) ++ [MOut.feedVideoStart s.duration])
      else
        ({ s with playCount := s.playCount + 1, currentPlayStartTime := some ct },
         (if muted then [MOut.unMuteCmd] else []) ++ []) := by
  unfold onPlayerStateChange
  rw [if_neg (by simp [h])]
  by_cases hs : s.hasStartedOnce = false <;> simp [hs]

theorem onPlayerStateChange_paused_none (s : VideoState) (now ct : ℚ)
    (muted : Bool) (h : s.isTrackingEnabled = true)
    (hcp : s.currentPlayStartTime = none) :
    onPlayerStateChange s PlayerState.paused now ct muted = (s, []) := by
  unfold onPlayerStateChange
  rw [if_neg (by simp [h])]
  simp [hcp]

theorem onPlayerStateChange_paused_some (s : VideoState) (now ct start : ℚ)
    (muted : Bool) (h : s.isTrackingEnabled = true)
    (hcp : s.currentPlayStartTime = some start) :
    onPlayerStateChange s PlayerState.paused now ct muted =
      if 0 < ct - start then
        ({ s with totalWatchTimeSeconds := s.totalWatchTimeSeconds + (ct - start),
                  currentPlayStartTime := none },
         [MOut.feedVideoWatchTime (s.totalWatchTimeSeconds + (ct - start))])
      else (s, []) := by
  unfold onPlayerStateChange
  rw [if_neg (by simp [h])]
  simp [hcp]

theorem onPlayerStateChange_ended_eq (s : VideoState) (now ct : ℚ)
    (muted : Bool) (h : s.isTrackingEnabled = true) :
    onPlayerStateChange s PlayerState.ended now ct muted =
      (let s1 :=
        match s.currentPlayStartTime with
        | none => s
        | some start =>
          if 0 < ct - start then
            { s with totalWatchTimeSeconds := s.totalWatchTimeSeconds + (ct - start),
                     currentPlayStartTime := none }
          else { s with currentPlayStartTime := none }
       let s3 := { s1 with completionCount := s1.completionCount + 1 }
       let s4 :=
        if s3.maxProgressReached < ct then { s3 with maxProgressReached := ct }
        else s3
       (s4, trackVideoComplete s4)) := by
  unfold onPlayerStateChange
  rw [if_neg (by simp [h])]
  cases hcp : s.currentPlayStartTime with
  | none => simp [hcp]
  | some start =>
    by_cases hw : 0 < ct - start <;> simp [hcp, hw]

theorem mongo_stateChange_buffering (s : VideoState) (now ct : ℚ)
    (muted : Bool) (h : s.isTrackingEnabled = true) :
    onPlayerStateChange s PlayerState.buffering now ct muted = (s, []) := by
  unfold onPlayerStateChange
  rw [if_neg (by simp [h])]

theorem mongo_checkMilestones_disabled (s : VideoState) (ct : ℚ)
    (h : s.isTrackingEnabled = false) : checkMilestones s ct = (s, []) := by
  simp [checkMilestones, h]

theorem checkMilestones_enabled (s : VideoState) (ct : ℚ)
    (h : s.isTrackingEnabled = true) :
    checkMilestones s ct =
      progressSweep
        (if 0 < s.duration then jround (ct / s.duration * 100) else 0) ct
        [25, 50, 75, 100]
        (if s.maxProgressReached < ct then { s with maxProgressReached := ct }
         else s) := by
  unfold checkMilestones
  rw [if_neg (by simp [h])]

theorem progressSweep_fields (pp : ℤ) (ct : ℚ) :
    ∀ (ms : List ℕ) (s : VideoState),
      (progressSweep pp ct ms s).1.totalWatchTimeSeconds = s.totalWatchTimeSeconds ∧
      (progressSweep pp ct ms s).1.currentPlayStartTime = s.currentPlayStartTime ∧
      (progressSweep pp ct ms s).1.duration = s.duration ∧
      (progressSweep pp ct ms s).1.hasStartedOnce = s.hasStartedOnce ∧
      (progressSweep pp ct ms s).1.isTrackingEnabled = s.isTrackingEnabled ∧
      (progressSweep pp ct ms s).1.playCount = s.playCount ∧
      (progressSweep pp ct ms s).1.completionCount = s.completionCount ∧
      (progressSweep pp ct ms s).1.maxProgressReached = s.maxProgressReached := by
  intro ms
  induction ms with
  | nil => intro s; simp [progressSweep]
  | cons a rest ih =>
    intro s
    simp only [progressSweep]
    split_ifs with h
    · have h1 := ih (trackVideoProgress s a ct).1
      have h2 : (trackVideoProgress s a ct).1.totalWatchTimeSeconds = s.totalWatchTimeSeconds ∧
          (trackVideoProgress s a ct).1.currentPlayStartTime = s.currentPlayStartTime ∧
          (trackVideoProgress s a ct).1.duration = s.duration ∧
          (trackVideoProgress s a ct).1.hasStartedOnce = s.hasStartedOnce ∧
          (trackVideoProgress s a ct).1.isTrackingEnabled = s.isTrackingEnabled ∧
          (trackVideoProgress s a ct).1.playCount = s.playCount ∧
          (trackVideoProgress s a ct).1.completionCount = s.completionCount ∧
          (trackVideoProgress s a ct).1.maxProgressReached = s.maxProgressReached := by
        unfold trackVideoProgress
        split_ifs <;> simp
      obtain ⟨a1, a2, a3, a4, a5, a6, a7, a8⟩ := h1
      obtain ⟨b1, b2, b3, b4, b5, b6, b7, b8⟩ := h2
      dsimp only
      exact ⟨a1.trans b1, a2.trans b2, a3.trans b3, a4.trans b4, a5.trans b5,
        a6.trans b6, a7.trans b7, a8.trans b8⟩
    · exact ih s

end MongoFV

/-! ### Sweep lemmas for the Mongo milestone loop -/

namespace MongoFV

theorem trackVideoProgress_subset (s : VideoState) (m : ℕ) (ct : ℚ) :
    s.milestonesReached ⊆ (trackVideoProgress s m ct).1.milestonesReached := by
  simp only [trackVideoProgress]
  split_ifs <;> simp [Finset.subset_insert]

theorem trackVideoProgress_chi (m a : ℕ) (s : VideoState) (ct : ℚ) :
    countP (isMProgressEv m) (trackVideoProgress s a ct).2 +
      chiF m (trackVideoProgress s a ct).1.milestonesReached ≤
      chiF m s.milestonesReached := by
  simp only [trackVideoProgress]
  split_ifs with ha
  · simp [countP]
  · by_cases hm : a = m
    · subst hm
      simp [countP, isMProgressEv, List.filter, chiF, ha]
    · have hb : (a == m) = false := by simp [hm]
      simp [countP, isMProgressEv, List.filter, hb, chiF,
        Finset.mem_insert, hm, Ne.symm hm]

theorem progressSweep_fst_subset (pp : ℤ) (ct : ℚ) :
    ∀ (ms : List ℕ) (s : VideoState),
      s.milestonesReached ⊆ (progressSweep pp ct ms s).1.milestonesReached := by
  intro ms
  induction ms with
  | nil => intro s; simp [progressSweep]
  | cons a rest ih =>
    intro s
    simp only [progressSweep]
    split_ifs with h
    · exact (trackVideoProgress_subset s a ct).trans (ih _)
    · exact ih s

theorem progressSweep_chi (m : ℕ) (pp : ℤ) (ct : ℚ) :
    ∀ (ms : List ℕ) (s : VideoState),
      countP (isMProgressEv m) (progressSweep pp ct ms s).2 +
        chiF m (progressSweep pp ct ms s).1.milestonesReached ≤
        chiF m s.milestonesReached := by
  intro ms
  induction ms with
  | nil => intro s; simp [progressSweep, countP]
  | cons a rest ih =>
    intro s
    simp only [progressSweep]
    split_ifs with h
    · rw [countP_append]
      have h1 := trackVideoProgress_chi m a s ct
      have h2 := ih (trackVideoProgress s a ct).1
      dsimp only
      omega
    · exact ih s

end MongoFV

/-! ### Milestone-set step lemmas -/

namespace GA4YT

theorem step_milestones_subset (s : SessionState) (i : Input) :
    s.milestonesReached ⊆ (step s i).1.milestonesReached := by
  cases i with
  | stateChange ps now ct =>
    simp only [step]
    by_cases h : s.isTrackingEnabled = false
    · rw [onPlayerStateChange_disabled s ps now ct h]
      split_ifs <;> simp
    · rw [Bool.not_eq_false] at h
      cases ps with
      | playing =>
        rw [onPlayerStateChange_playing s now ct h, handleVideoPlay_eq]
        split_ifs <;> simp
      | paused =>
        rw [onPlayerStateChange_paused s now ct h]
        cases hcp : s.currentPlayStartTime with
        | none => rw [handleVideoPause_none s now ct hcp]
        | some start =>
          rw [handleVideoPause_some s now ct start hcp]
          split_ifs <;> simp
      | ended =>
        rw [onPlayerStateChange_ended s now ct h, handleVideoEnd_eq]
        split_ifs <;> simp [Finset.subset_insert]
      | buffering =>
        rw [onPlayerStateChange_buffering s now ct h]
  | pollTick ct =>
    simp only [step]
    split_ifs with hd
    · simp
    · by_cases h : s.isTrackingEnabled = false
      · rw [checkMilestones_disabled s ct h]
      · rw [Bool.not_eq_false] at h
        rw [checkMilestones_fst_milestones s ct h]
        exact sweep_fst_subset _ _ _ _ _ _
  | teardown now =>
    simp only [step]
    by_cases h : s.isTrackingEnabled = false ∨ s.hasStartedOnce = false ∨
      s.hasReportedFinalResults = true
    · rw [reportFinalResults_guard s now h]
    · push_neg at h
      obtain ⟨h1, h2, h3⟩ := h
      rw [reportFinalResults_active s now (by simpa using h1) (by simpa using h2)
        (by simpa using h3)]
      split_ifs <;> simp
  | enableTracking =>
    simp [step]

theorem step_progress_chi (m : ℕ) (s : SessionState) (i : Input) :
    countP (isProgressEv m) (step s i).2 + chiF m (step s i).1.milestonesReached ≤
      chiF m s.milestonesReached := by
  cases i with
  | stateChange ps now ct =>
    simp only [step]
    by_cases h : s.isTrackingEnabled = false
    · rw [onPlayerStateChange_disabled s ps now ct h]
      split_ifs <;> simp [countP, isProgressEv, List.filter]
    · rw [Bool.not_eq_false] at h
      cases ps with
      | playing =>
        rw [onPlayerStateChange_playing s now ct h, handleVideoPlay_eq]
        split_ifs <;> simp [countP, isProgressEv, List.filter]
      | paused =>
        rw [onPlayerStateChange_paused s now ct h]
        cases hcp : s.currentPlayStartTime with
        | none => rw [handleVideoPause_none s now ct hcp]; simp [countP]
        | some start =>
          rw [handleVideoPause_some s now ct start hcp]
          split_ifs <;> simp [countP, isProgressEv, List.filter]
      | ended =>
        rw [onPlayerStateChange_ended s now ct h, handleVideoEnd_eq]
        split_ifs with h100
        · simp [countP]
        · by_cases hm : m = 100
          · subst hm
            simp [countP, isProgressEv, List.filter, chiF, h100]
          · have hb : (100 == m) = false := by simp [Ne.symm hm]
            simp [countP, isProgressEv, List.filter, hb, chiF,
              Finset.mem_insert, hm]
      | buffering =>
        rw [onPlayerStateChange_buffering s now ct h]
        simp [countP]
  | pollTick ct =>
    simp only [step]
    split_ifs with hd
    · simp [countP]
    · by_cases h : s.isTrackingEnabled = false
      · rw [checkMilestones_disabled s ct h]; simp [countP]
      · rw [Bool.not_eq_false] at h
        rw [checkMilestones_fst_milestones s ct h, checkMilestones_snd s ct h]
        exact sweep_chi _ _ _ _ _ _ _
  | teardown now =>
    simp only [step]
    by_cases h : s.isTrackingEnabled = false ∨ s.hasStartedOnce = false ∨
      s.hasReportedFinalResults = true
    · rw [reportFinalResults_guard s now h]; simp [countP]
    · push_neg at h
      obtain ⟨h1, h2, h3⟩ := h
      rw [reportFinalResults_active s now (by simpa using h1) (by simpa using h2)
        (by simpa using h3)]
      split_ifs <;> simp [countP, isProgressEv, List.filter]
  | enableTracking =>
    simp [step, countP]

theorem run_milestones_subset (tr : List Input) (s : SessionState) :
    s.milestonesReached ⊆ (run s tr).1.milestonesReached := by
  induction tr generalizing s with
  | nil => simp [run]
  | cons i tr ih =>
    rw [run_cons]
    exact (step_milestones_subset s i).trans (ih (step s i).1)

end GA4YT

namespace MongoFV

theorem mongo_step_milestones_subset (s : VideoState) (i : MInput) :
    s.milestonesReached ⊆ (step s i).1.milestonesReached := by
  cases i with
  | stateChange ps now ct muted =>
    simp only [step]
    by_cases h : s.isTrackingEnabled = false
    · rw [mongo_stateChange_disabled s ps now ct muted h]
    · rw [Bool.not_eq_false] at h
      cases ps with
      | playing =>
        rw [onPlayerStateChange_playing_eq s now ct muted h]
        split_ifs <;> simp
      | paused =>
        cases hcp : s.currentPlayStartTime with
        | none => rw [onPlayerStateChange_paused_none s now ct muted h hcp]
        | some start =>
          rw [onPlayerStateChange_paused_some s now ct start muted h hcp]
          split_ifs <;> simp
      | ended =>
        rw [onPlayerStateChange_ended_eq s now ct muted h]
        cases hcp : s.currentPlayStartTime with
        | none => dsimp only; split_ifs <;> simp
        | some start => dsimp only; split_ifs <;> simp
      | buffering =>
        rw [mongo_stateChange_buffering s now ct muted h]
  | pollTick ct =>
    simp only [step]
    by_cases h : s.isTrackingEnabled = false
    · rw [mongo_checkMilestones_disabled s ct h]
    · rw [Bool.not_eq_false] at h
      rw [checkMilestones_enabled s ct h]
      split_ifs <;>
        · refine Finset.Subset.trans ?_ (progressSweep_fst_subset _ _ _ _)
          simp
  | unload ct =>
    simp only [step, handleUnload]
    split_ifs with hg
    · simp
    · cases hcp : s.currentPlayStartTime with
      | none => simp [hcp]
      | some start =>
        simp only [hcp]
        split_ifs <;> simp
  | visibilityHiddenSig ct =>
    simp only [step, visibilityHidden]
    cases hcp : s.currentPlayStartTime with
    | none => simp
    | some start =>
      simp only [hcp]
      split_ifs <;> simp
  | enableTracking =>
    simp [step]

theorem mongo_step_progress_chi (m : ℕ) (s : VideoState) (i : MInput) :
    countP (isMProgressEv m) (step s i).2 + chiF m (step s i).1.milestonesReached ≤
      chiF m s.milestonesReached := by
  cases i with
  | stateChange ps now ct muted =>
    simp only [step]
    by_cases h : s.isTrackingEnabled = false
    · rw [mongo_stateChange_disabled s ps now ct muted h]; simp [countP]
    · rw [Bool.not_eq_false] at h
      cases ps with
      | playing =>
        rw [onPlayerStateChange_playing_eq s now ct muted h]
        split_ifs <;> simp [countP, isMProgressEv, List.filter]
      | paused =>
        cases hcp : s.currentPlayStartTime with
        | none =>
          rw [onPlayerStateChange_paused_none s now ct muted h hcp]
          simp [countP]
        | some start =>
          rw [onPlayerStateChange_paused_some s now ct start muted h hcp]
          split_ifs <;> simp [countP, isMProgressEv, List.filter]
      | ended =>
        rw [onPlayerStateChange_ended_eq s now ct muted h]
        cases hcp : s.currentPlayStartTime with
        | none =>
          dsimp only
          split_ifs <;> simp [countP, isMProgressEv, List.filter, trackVideoComplete]
        | some start =>
          dsimp only
          split_ifs <;> simp [countP, isMProgressEv, List.filter, trackVideoComplete]
      | buffering =>
        rw [mongo_stateChange_buffering s now ct muted h]
        simp [countP]
  | pollTick ct =>
    simp only [step]
    by_cases h : s.isTrackingEnabled = false
    · rw [mongo_checkMilestones_disabled s ct h]; simp [countP]
    · rw [Bool.not_eq_false] at h
      rw [checkMilestones_enabled s ct h]
      split_ifs <;> exact progressSweep_chi _ _ _ _ _
  | unload ct =>
    simp only [step, handleUnload]
    split_ifs with hg
    · simp [countP]
    · cases hcp : s.currentPlayStartTime with
      | none => simp [hcp, trackVideoSummary, countP, isMProgressEv, List.filter]
      | some start =>
        simp only [hcp]
        split_ifs <;> simp [trackVideoSummary, countP, isMProgressEv, List.filter]
  | visibilityHiddenSig ct =>
    simp only [step, visibilityHidden]
    cases hcp : s.currentPlayStartTime with
    | none => simp [countP]
    | some start =>
      simp only [hcp]
      split_ifs <;> simp [countP]
  | enableTracking =>
    simp [step, countP]

theorem mongo_run_milestones_subset (tr : List MInput) (s : VideoState) :
    s.milestonesReached ⊆ (run s tr).1.milestonesReached := by
  induction tr generalizing s with
  | nil => simp [run]
  | cons i tr ih =>
    rw [mrun_cons]
    exact (mongo_step_milestones_subset s i).trans (ih (step s i).1)

end MongoFV

/-! ### Claim C2 -/

/-- C2: in every run of either tracker variant, the `milestonesReached` set
only grows (no operation removes an element, so a value is added at most
once), and the milestone progress event for any given value is emitted at
most once per session — re-crossing a threshold after replay or seeking
cannot re-emit. -/
theorem milestones_grow_and_fire_at_most_once (m : ℕ) :
    (∀ (s : GA4YT.SessionState) (tr : List GA4YT.Input),
        s.milestonesReached ⊆ (GA4YT.run s tr).1.milestonesReached ∧
        countP (isProgressEv m) (GA4YT.run s tr).2 ≤ 1) ∧
    (∀ (s : MongoFV.VideoState) (tr : List MongoFV.MInput),
        s.milestonesReached ⊆ (MongoFV.run s tr).1.milestonesReached ∧
        countP (isMProgressEv m) (MongoFV.run s tr).2 ≤ 1) := by
  constructor
  · intro s tr
    refine ⟨GA4YT.run_milestones_subset tr s, ?_⟩
    have h := GA4YT.run_potential (isProgressEv m)
      (fun t => chiF m t.milestonesReached) (GA4YT.step_progress_chi m) tr s
    have hb : chiF m s.milestonesReached ≤ 1 := by
      unfold chiF; split_ifs <;> omega
    omega
  · intro s tr
    refine ⟨MongoFV.mongo_run_milestones_subset tr s, ?_⟩
    have h := MongoFV.mrun_potential (isMProgressEv m)
      (fun t => chiF m t.milestonesReached) (MongoFV.mongo_step_progress_chi m) tr s
    have hb : chiF m s.milestonesReached ≤ 1 := by
      unfold chiF; split_ifs <;> omega
    omega

/-! ### Claim C1 -/

namespace GA4YT

/-- Potential of the write-once final-report flag: 1 while the flag is
still false, 0 once it is true. -/
def phiReport (s : SessionState) : ℕ := if s.hasReportedFinalResults then 0 else 1

theorem step_complete_phi (s : SessionState) (i : Input) :
    countP isSessionCompleteEv (step s i).2 + phiReport (step s i).1 ≤
      phiReport s := by
  cases i with
  | stateChange ps now ct =>
    simp only [step]
    by_cases h : s.isTrackingEnabled = false
    · rw [onPlayerStateChange_disabled s ps now ct h]
      split_ifs <;> simp [countP, isSessionCompleteEv, List.filter, phiReport]
    · rw [Bool.not_eq_false] at h
      cases ps with
      | playing =>
        rw [onPlayerStateChange_playing s now ct h, handleVideoPlay_eq]
        split_ifs <;> simp [countP, isSessionCompleteEv, List.filter, phiReport]
      | paused =>
        rw [onPlayerStateChange_paused s now ct h]
        cases hcp : s.currentPlayStartTime with
        | none =>
          rw [handleVideoPause_none s now ct hcp]
          simp [countP, phiReport]
        | some start =>
          rw [handleVideoPause_some s now ct start hcp]
          split_ifs <;> simp [countP, isSessionCompleteEv, List.filter, phiReport]
      | ended =>
        rw [onPlayerStateChange_ended s now ct h, handleVideoEnd_eq]
        split_ifs <;> simp [countP, isSessionCompleteEv, List.filter, phiReport]
      | buffering =>
        rw [onPlayerStateChange_buffering s now ct h]
        simp [countP, phiReport]
  | pollTick ct =>
    simp only [step]
    split_ifs with hd
    · simp [countP, phiReport]
    · by_cases h : s.isTrackingEnabled = false
      · rw [checkMilestones_disabled s ct h]; simp [countP, phiReport]
      · rw [Bool.not_eq_false] at h
        have h1 := checkMilestones_snd s ct h
        have h2 := (checkMilestones_fst_fields s ct).2.2.2.2.1
        rw [h1]
        rw [sweep_countP_zero _ _ _ _ isSessionCompleteEv (fun _ _ _ _ => rfl)]
        simp [phiReport, h2]
  | teardown now =>
    simp only [step]
    by_cases h : s.isTrackingEnabled = false ∨ s.hasStartedOnce = false ∨
      s.hasReportedFinalResults = true
    · rw [reportFinalResults_guard s now h]
      simp [countP, phiReport]
    · push_neg at h
      obtain ⟨h1, h2, h3⟩ := h
      have h3' : s.hasReportedFinalResults = false := by simpa using h3
      rw [reportFinalResults_active s now (by simpa using h1) (by simpa using h2) h3']
      split_ifs <;> simp [countP, isSessionCompleteEv, List.filter, phiReport, h3']
  | enableTracking =>
    simp [step, countP, phiReport]

end GA4YT

/-- C1 (amended): in the GA4 trackers, over any input trace the
`video_session_complete` summary is emitted at most once: while
`hasReportedFinalResults` is false at most one emission can ever follow, and
once it is true no step ever emits the summary again.  In the Mongo
feed-video tracker, by contrast, `handleUnload` has no write-once guard:
every invocation with tracking enabled and a started video emits one
`feed_video_summary`. -/
theorem final_summary_at_most_once_amended :
    (∀ (s : GA4YT.SessionState) (tr : List GA4YT.Input),
        (s.hasReportedFinalResults = false →
          countP isSessionCompleteEv (GA4YT.run s tr).2 ≤ 1) ∧
        (s.hasReportedFinalResults = true →
          countP isSessionCompleteEv (GA4YT.run s tr).2 = 0)) ∧
    (∀ (s : MongoFV.VideoState) (ct : ℚ),
        s.isTrackingEnabled = true → s.hasStartedOnce = true →
        countP isSummaryEv (MongoFV.handleUnload s ct).2 = 1) := by
  constructor
  · intro s tr
    have h := GA4YT.run_potential isSessionCompleteEv GA4YT.phiReport
      GA4YT.step_complete_phi tr s
    constructor
    · intro hf
      have : GA4YT.phiReport s = 1 := by simp [GA4YT.phiReport, hf]
      omega
    · intro ht
      have : GA4YT.phiReport s = 0 := by simp [GA4YT.phiReport, ht]
      omega
  · intro s ct h1 h2
    unfold MongoFV.handleUnload
    rw [if_neg (by simp [h1, h2])]
    cases hcp : s.currentPlayStartTime with
    | none => simp [MongoFV.trackVideoSummary, countP, isSummaryEv, List.filter]
    | some start =>
      dsimp only
      split_ifs <;> simp [MongoFV.trackVideoSummary, countP, isSummaryEv, List.filter]

/-- Witness for `final_summary_at_most_once_amended` at a concrete session. -/
theorem final_summary_at_most_once_witness :
    countP isSessionCompleteEv
      (GA4YT.run (GA4YT.initState 100) [GA4YT.Input.teardown 5]).2 ≤ 1 :=
  (final_summary_at_most_once_amended.1 (GA4YT.initState 100)
    [GA4YT.Input.teardown 5]).1 rfl

/-- C1 counterexample: the claim is false for the Mongo feed-video tracker.
Starting from the module-load state with duration 100, after tap-to-start, a
play at position 0 and two teardown-trigger invocations of `handleUnload`
(e.g. `beforeunload` followed by `pagehide`) at position 30, the tracker
emits the `feed_video_summary` final summary twice — there is no
`finalReportSent` guard in this variant. -/
theorem mongo_double_unload_two_summaries :
    countP isSummaryEv
      (MongoFV.run (MongoFV.initState 100)
        [MongoFV.MInput.enableTracking,
         MongoFV.MInput.stateChange PlayerState.playing 0 0 false,
         MongoFV.MInput.unload 30,
         MongoFV.MInput.unload 30]).2 = 2 := by
  norm_num [MongoFV.run, MongoFV.step, MongoFV.onPlayerStateChange,
    MongoFV.handleUnload, MongoFV.trackVideoSummary, MongoFV.initState,
    countP, isSummaryEv, List.filter, jround]

/-! ### Claim C4 -/

namespace GA4DOM

theorem dom_handleVideoPlay_eq (s : DomState) (now ct : ℚ)
    (h : s.isTrackingEnabled = true) :
    handleVideoPlay s now ct =
      if s.hasStartedOnce = false then
        ({ s with playCount := s.playCount + 1, currentPlayStartTime := some now,
                  hasStartedOnce := true },
         [GOut.videoStart s.duration (s.playCount + 1),
          GOut.videoPlay ct (s.playCount + 1) (decide (1 < s.playCount + 1))])
      else
        ({ s with playCount := s.playCount + 1, currentPlayStartTime := some now },
         [GOut.videoPlay ct (s.playCount + 1) (decide (1 < s.playCount + 1))]) := by
  unfold handleVideoPlay
  rw [if_neg (by simp [h])]

end GA4DOM

namespace GA4YT

/-- Potential of the `hasStartedOnce` gate: 1 while the video has not yet
started, 0 afterwards. -/
def psiStart (s : SessionState) : ℕ := if s.hasStartedOnce then 0 else 1

theorem step_start_psi (s : SessionState) (i : Input) :
    countP isStartEv (step s i).2 + psiStart (step s i).1 ≤ psiStart s := by
  cases i with
  | stateChange ps now ct =>
    simp only [step]
    by_cases h : s.isTrackingEnabled = false
    · rw [onPlayerStateChange_disabled s ps now ct h]
      split_ifs <;> simp [countP, isStartEv, List.filter, psiStart]
    · rw [Bool.not_eq_false] at h
      cases ps with
      | playing =>
        rw [onPlayerStateChange_playing s now ct h, handleVideoPlay_eq]
        split_ifs with hs <;>
          simp [countP, isStartEv, List.filter, psiStart, hs]
      | paused =>
        rw [onPlayerStateChange_paused s now ct h]
        cases hcp : s.currentPlayStartTime with
        | none =>
          rw [handleVideoPause_none s now ct hcp]
          simp [countP, psiStart]
        | some start =>
          rw [handleVideoPause_some s now ct start hcp]
          split_ifs <;> simp [countP, isStartEv, List.filter, psiStart]
      | ended =>
        rw [onPlayerStateChange_ended s now ct h, handleVideoEnd_eq]
        split_ifs <;> simp [countP, isStartEv, List.filter, psiStart]
      | buffering =>
        rw [onPlayerStateChange_buffering s now ct h]
        simp [countP, psiStart]
  | pollTick ct =>
    simp only [step]
    split_ifs with hd
    · simp [countP, psiStart]
    · by_cases h : s.isTrackingEnabled = false
      · rw [checkMilestones_disabled s ct h]; simp [countP, psiStart]
      · rw [Bool.not_eq_false] at h
        have h2 := (checkMilestones_fst_fields s ct).2.2.2.1
        rw [checkMilestones_snd s ct h]
        rw [sweep_countP_zero _ _ _ _ isStartEv (fun _ _ _ _ => rfl)]
        simp [psiStart, h2]
  | teardown now =>
    simp only [step]
    by_cases h : s.isTrackingEnabled = false ∨ s.hasStartedOnce = false ∨
      s.hasReportedFinalResults = true
    · rw [reportFinalResults_guard s now h]
      simp [countP, psiStart]
    · push_neg at h
      obtain ⟨h1, h2, h3⟩ := h
      rw [reportFinalResults_active s now (by simpa using h1) (by simpa using h2)
        (by simpa using h3)]
      split_ifs <;> simp [countP, isStartEv, List.filter, psiStart]
  | enableTracking =>
    simp [step, countP, psiStart]

end GA4YT

/-- C4: with tracking enabled, `video_start` is emitted exactly once per
session: over any trace it is emitted at most once in the GA4 YouTube
tracker, and the first enabled play transition (while `hasStartedOnce` is
false) emits it and sets the gate; later enabled play transitions emit no
`video_start`.  Every enabled play transition emits exactly one `video_play`
carrying `is_replay = (playCount > 1)` for the incremented play count, in
both GA4 variants. -/
theorem video_start_once_and_play_per_transition :
    (∀ (s : GA4YT.SessionState) (tr : List GA4YT.Input),
        countP isStartEv (GA4YT.run s tr).2 ≤ 1) ∧
    (∀ (s : GA4YT.SessionState) (now ct : ℚ),
        s.isTrackingEnabled = true →
        (s.hasStartedOnce = false →
          (GA4YT.step s (GA4YT.Input.stateChange PlayerState.playing now ct)).2 =
            [GOut.videoStart s.duration (s.playCount + 1),
             GOut.videoPlay ct (s.playCount + 1) (decide (1 < s.playCount + 1))] ∧
          (GA4YT.step s
            (GA4YT.Input.stateChange PlayerState.playing now ct)).1.hasStartedOnce
            = true) ∧
        (s.hasStartedOnce = true →
          (GA4YT.step s (GA4YT.Input.stateChange PlayerState.playing now ct)).2 =
            [GOut.videoPlay ct (s.playCount + 1) (decide (1 < s.playCount + 1))])) ∧
    (∀ (s : GA4DOM.DomState) (now ct : ℚ),
        s.isTrackingEnabled = true →
        (s.hasStartedOnce = false →
          (GA4DOM.handleVideoPlay s now ct).2 =
            [GOut.videoStart s.duration (s.playCount + 1),
             GOut.videoPlay ct (s.playCount + 1) (decide (1 < s.playCount + 1))] ∧
          (GA4DOM.handleVideoPlay s now ct).1.hasStartedOnce = true) ∧
        (s.hasStartedOnce = true →
          (GA4DOM.handleVideoPlay s now ct).2 =
            [GOut.videoPlay ct (s.playCount + 1) (decide (1 < s.playCount + 1))])) := by
  refine ⟨?_, ?_, ?_⟩
  · intro s tr
    have h := GA4YT.run_potential isStartEv GA4YT.psiStart GA4YT.step_start_psi tr s
    have hb : GA4YT.psiStart s ≤ 1 := by unfold GA4YT.psiStart; split_ifs <;> omega
    omega
  · intro s now ct h
    simp only [GA4YT.step]
    rw [GA4YT.onPlayerStateChange_playing s now ct h, GA4YT.handleVideoPlay_eq]
    constructor
    · intro hs
      rw [if_pos hs]
      exact ⟨rfl, rfl⟩
    · intro hs
      rw [if_neg (by simp [hs])]
  · intro s now ct h
    rw [GA4DOM.dom_handleVideoPlay_eq s now ct h]
    constructor
    · intro hs
      rw [if_pos hs]
      exact ⟨rfl, rfl⟩
    · intro hs
      rw [if_neg (by simp [hs])]

/-- Witness for `video_start_once_and_play_per_transition`: the first
enabled play transition of the GA4 YouTube tracker emits `video_start`
followed by `video_play` with `is_replay = false`. -/
theorem video_start_once_witness :
    (GA4YT.step { GA4YT.initState 100 with isTrackingEnabled := true }
      (GA4YT.Input.stateChange PlayerState.playing 5 0)).2 =
      [GOut.videoStart 100 1, GOut.videoPlay 0 1 false] :=
  ((video_start_once_and_play_per_transition.2.1
    { GA4YT.initState 100 with isTrackingEnabled := true } 5 0 rfl).1 rfl).1

/-! ### Claim C7 -/

namespace GA4DOM

theorem handleVideoPause_disabled (s : DomState) (now ct : ℚ)
    (h : s.isTrackingEnabled = false) : handleVideoPause s now ct = (s, []) := by
  unfold handleVideoPause
  rw [if_pos h]

theorem handleVideoEnd_disabled (s : DomState) (ct : ℚ)
    (h : s.isTrackingEnabled = false) : handleVideoEnd s ct = (s, []) := by
  unfold handleVideoEnd
  rw [if_pos h]

theorem handleVideoPlay_disabled (s : DomState) (now ct : ℚ)
    (h : s.isTrackingEnabled = false) :
    handleVideoPlay s now ct = (s, [GOut.pauseVideoCmd]) := by
  unfold handleVideoPlay
  rw [if_pos h]

end GA4DOM

/-- C7 (amended): while tracking is disabled, every Playback Source callback
of every variant leaves the session state unchanged and emits no sink event;
the GA4 variants additionally revert an autonomous play attempt by issuing a
`pause` command to the source, while the Mongo feed-video tracker ignores
the play attempt silently (its `onPlayerStateChange` returns without sending
any pause command). -/
theorem disabled_gate_amended :
    (∀ (s : GA4YT.SessionState) (ps : PlayerState) (now ct : ℚ),
        s.isTrackingEnabled = false →
        (GA4YT.onPlayerStateChange s ps now ct).1 = s ∧
        countP isSinkEv (GA4YT.onPlayerStateChange s ps now ct).2 = 0 ∧
        (ps = PlayerState.playing →
          (GA4YT.onPlayerStateChange s ps now ct).2 = [GOut.pauseVideoCmd])) ∧
    (∀ (s : GA4YT.SessionState) (ct : ℚ), s.isTrackingEnabled = false →
        GA4YT.checkMilestones s ct = (s, [])) ∧
    (∀ (s : GA4DOM.DomState) (now ct : ℚ), s.isTrackingEnabled = false →
        GA4DOM.handleVideoPlay s now ct = (s, [GOut.pauseVideoCmd]) ∧
        GA4DOM.handleVideoPause s now ct = (s, []) ∧
        GA4DOM.handleVideoEnd s ct = (s, [])) ∧
    (∀ (s : MongoFV.VideoState) (ps : PlayerState) (now ct : ℚ) (muted : Bool),
        s.isTrackingEnabled = false →
        MongoFV.onPlayerStateChange s ps now ct muted = (s, []) ∧
        MongoFV.checkMilestones s ct = (s, [])) := by
  refine ⟨?_, ?_, ?_, ?_⟩
  · intro s ps now ct h
    rw [GA4YT.onPlayerStateChange_disabled s ps now ct h]
    split_ifs with hp
    · exact ⟨rfl, by simp [countP, isSinkEv, List.filter], fun _ => rfl⟩
    · exact ⟨rfl, by simp [countP], fun hpp => absurd hpp hp⟩
  · exact fun s ct h => GA4YT.checkMilestones_disabled s ct h
  · intro s now ct h
    exact ⟨GA4DOM.handleVideoPlay_disabled s now ct h,
      GA4DOM.handleVideoPause_disabled s now ct h,
      GA4DOM.handleVideoEnd_disabled s ct h⟩
  · intro s ps now ct muted h
    exact ⟨MongoFV.mongo_stateChange_disabled s ps now ct muted h,
      MongoFV.mongo_checkMilestones_disabled s ct h⟩

/-- Witness for `disabled_gate_amended`: a PLAYING callback before
tap-to-start leaves the GA4 YouTube state unchanged, emits nothing to the
sink and sends the player a pause command. -/
theorem disabled_gate_witness :
    countP isSinkEv
      (GA4YT.onPlayerStateChange (GA4YT.initState 100) PlayerState.playing 0 5).2 = 0 ∧
    (GA4YT.onPlayerStateChange (GA4YT.initState 100) PlayerState.playing 0 5).2 =
      [GOut.pauseVideoCmd] :=
  ⟨(disabled_gate_amended.1 (GA4YT.initState 100) PlayerState.playing 0 5 rfl).2.1,
   (disabled_gate_amended.1 (GA4YT.initState 100) PlayerState.playing 0 5 rfl).2.2 rfl⟩

/-- C7 counterexample: the claim is false for the Mongo feed-video tracker.
In the disabled state an autonomous PLAYING callback is ignored outright —
the step returns the unchanged state with an empty output list, so no pause
command is issued to the playback source (the GA4 variants do send
`pauseVideo()` here). -/
theorem mongo_disabled_play_not_reverted_cex :
    MongoFV.onPlayerStateChange (MongoFV.initState 100) PlayerState.playing 0 5 false =
      (MongoFV.initState 100, []) := by
  simp [MongoFV.onPlayerStateChange, MongoFV.initState]

/-! ### Claim C5 -/

namespace GA4DOM

theorem dom_handleVideoEnd_eq (s : DomState) (ct : ℚ)
    (h : s.isTrackingEnabled = true) :
    handleVideoEnd s ct =
      if 100 ∈ s.milestonesReached then
        ({ s with completionCount := s.completionCount + 1,
                  currentPlayStartTime := none }, [])
      else
        ({ s with completionCount := s.completionCount + 1,
                  milestonesReached := insert 100 s.milestonesReached,
                  currentPlayStartTime := none },
         [GOut.videoProgress 100 (jround ct) s.playCount
            (jround s.totalWatchTimeSeconds)]) := by
  unfold handleVideoEnd
  rw [if_neg (by simp [h])]

end GA4DOM

/-- C5 (amended): the GA4 ended handlers increment `completionCount` by
exactly 1, clear `currentPlayStartedAt` and add-and-emit the 100% milestone
when it is not yet reached — but they perform NO watch-time accumulation:
the open play interval is discarded (unlike `handleVideoPause`).  The Mongo
ended branch does accumulate the clamped position delta and clears the open
interval, increments `completionCount`, but emits no milestone progress
event at all (it emits `feed_video_complete` instead and leaves
`milestonesReached` untouched). -/
theorem ended_handler_amended :
    (∀ (s : GA4YT.SessionState) (ct : ℚ),
        (GA4YT.handleVideoEnd s ct).1.completionCount = s.completionCount + 1 ∧
        (GA4YT.handleVideoEnd s ct).1.totalWatchTimeSeconds = s.totalWatchTimeSeconds ∧
        (GA4YT.handleVideoEnd s ct).1.currentPlayStartTime = none ∧
        (100 ∉ s.milestonesReached →
          (GA4YT.handleVideoEnd s ct).1.milestonesReached =
            insert 100 s.milestonesReached ∧
          (GA4YT.handleVideoEnd s ct).2 =
            [GOut.videoProgress 100 (jround ct) s.playCount
              (jround s.totalWatchTimeSeconds)]) ∧
        (100 ∈ s.milestonesReached → (GA4YT.handleVideoEnd s ct).2 = [])) ∧
    (∀ (s : GA4DOM.DomState) (ct : ℚ), s.isTrackingEnabled = true →
        (GA4DOM.handleVideoEnd s ct).1.completionCount = s.completionCount + 1 ∧
        (GA4DOM.handleVideoEnd s ct).1.totalWatchTimeSeconds = s.totalWatchTimeSeconds ∧
        (GA4DOM.handleVideoEnd s ct).1.currentPlayStartTime = none ∧
        (100 ∉ s.milestonesReached →
          (GA4DOM.handleVideoEnd s ct).2 =
            [GOut.videoProgress 100 (jround ct) s.playCount
              (jround s.totalWatchTimeSeconds)]) ∧
        (100 ∈ s.milestonesReached → (GA4DOM.handleVideoEnd s ct).2 = [])) ∧
    (∀ (s : MongoFV.VideoState) (now ct : ℚ) (muted : Bool),
        s.isTrackingEnabled = true →
        (MongoFV.onPlayerStateChange s PlayerState.ended now ct muted).1.completionCount
          = s.completionCount + 1 ∧
        (MongoFV.onPlayerStateChange s PlayerState.ended now ct muted).1.currentPlayStartTime
          = none ∧
        (MongoFV.onPlayerStateChange s PlayerState.ended now ct muted).1.milestonesReached
          = s.milestonesReached ∧
        countP isAnyMProgressEv
          (MongoFV.onPlayerStateChange s PlayerState.ended now ct muted).2 = 0 ∧
        (∀ start : ℚ, s.currentPlayStartTime = some start →
          (MongoFV.onPlayerStateChange s PlayerState.ended now ct muted).1.totalWatchTimeSeconds
            = s.totalWatchTimeSeconds + max 0 (ct - start))) := by
  refine ⟨?_, ?_, ?_⟩
  · intro s ct
    rw [GA4YT.handleVideoEnd_eq]
    split_ifs with h100
    · exact ⟨rfl, rfl, rfl, fun hn => absurd h100 hn, fun _ => rfl⟩
    · exact ⟨rfl, rfl, rfl, fun _ => ⟨rfl, rfl⟩, fun hi => absurd hi h100⟩
  · intro s ct h
    rw [GA4DOM.dom_handleVideoEnd_eq s ct h]
    split_ifs with h100
    · exact ⟨rfl, rfl, rfl, fun hn => absurd h100 hn, fun _ => rfl⟩
    · exact ⟨rfl, rfl, rfl, fun _ => rfl, fun hi => absurd hi h100⟩
  · intro s now ct muted h
    rw [MongoFV.onPlayerStateChange_ended_eq s now ct muted h]
    cases hcp : s.currentPlayStartTime with
    | none =>
      dsimp only
      split_ifs <;>
        refine ⟨rfl, hcp, rfl, by simp [MongoFV.trackVideoComplete, countP,
          isAnyMProgressEv, List.filter], fun start hs => by simp [hcp] at hs⟩
    | some start =>
      dsimp only
      split_ifs with hw hm hm
      · exact ⟨rfl, rfl, rfl, by simp [MongoFV.trackVideoComplete, countP,
          isAnyMProgressEv, List.filter], fun t ht => by
            cases ht
            simp [max_eq_right (le_of_lt hw)]⟩
      · exact ⟨rfl, rfl, rfl, by simp [MongoFV.trackVideoComplete, countP,
          isAnyMProgressEv, List.filter], fun t ht => by
            cases ht
            simp [max_eq_right (le_of_lt hw)]⟩
      · exact ⟨rfl, rfl, rfl, by simp [MongoFV.trackVideoComplete, countP,
          isAnyMProgressEv, List.filter], fun t ht => by
            cases ht
            have hmax : max 0 (ct - start) = 0 := max_eq_left (not_lt.mp hw)
            simp [hmax]⟩
      · exact ⟨rfl, rfl, rfl, by simp [MongoFV.trackVideoComplete, countP,
          isAnyMProgressEv, List.filter], fun t ht => by
            cases ht
            have hmax : max 0 (ct - start) = 0 := max_eq_left (not_lt.mp hw)
            simp [hmax]⟩

/-- Witness for `ended_handler_amended`: an ended transition of the GA4
YouTube tracker with an open play interval discards the interval (the total
stays 0), clears it, increments the completion count and emits the 100%
milestone. -/
theorem ended_handler_witness :
    (GA4YT.handleVideoEnd
      { GA4YT.initState 100 with
          isTrackingEnabled := true, hasStartedOnce := true, playCount := 1,
          currentPlayStartTime := some 1000 } 10).1.totalWatchTimeSeconds =
      (GA4YT.initState 100).totalWatchTimeSeconds :=
  (ended_handler_amended.1
    { GA4YT.initState 100 with
        isTrackingEnabled := true, hasStartedOnce := true, playCount := 1,
        currentPlayStartTime := some 1000 } 10).2.1

/-- C5 counterexample: the ended handler does not perform the same
accumulation as pause.  With duration 100, after tap-to-start and a play at
wall clock 1000 ms, delivering `ended` at wall clock 11000 ms leaves the
accumulated watch time at 0, while delivering `paused` at the same instant
accumulates 10 seconds. -/
theorem ended_no_accumulation_cex :
    (GA4YT.run (GA4YT.initState 100)
      [GA4YT.Input.enableTracking,
       GA4YT.Input.stateChange PlayerState.playing 1000 0,
       GA4YT.Input.stateChange PlayerState.ended 11000 10]).1.totalWatchTimeSeconds
      = 0 ∧
    (GA4YT.run (GA4YT.initState 100)
      [GA4YT.Input.enableTracking,
       GA4YT.Input.stateChange PlayerState.playing 1000 0,
       GA4YT.Input.stateChange PlayerState.paused 11000 10]).1.totalWatchTimeSeconds
      = 10 ∧ (0 : ℚ) ≠ 10 := by
  norm_num [GA4YT.run, GA4YT.step, GA4YT.onPlayerStateChange,
    GA4YT.handleVideoPlay, GA4YT.handleVideoPause, GA4YT.handleVideoEnd,
    GA4YT.initState]

/-! ### Claim C3 -/

namespace GA4YT

theorem trailingTotal_ge (s : SessionState) (now : ℚ) :
    s.totalWatchTimeSeconds ≤ trailingTotal s now := by
  unfold trailingTotal
  cases s.currentPlayStartTime with
  | none => exact le_refl _
  | some start =>
    dsimp only
    split_ifs
    · exact le_refl _
    · have := le_max_left (0 : ℚ) ((now - start) / 1000)
      linarith

theorem step_total_mono (s : SessionState) (i : Input) :
    s.totalWatchTimeSeconds ≤ (step s i).1.totalWatchTimeSeconds := by
  cases i with
  | stateChange ps now ct =>
    simp only [step]
    by_cases h : s.isTrackingEnabled = false
    · rw [onPlayerStateChange_disabled s ps now ct h]
      split_ifs <;> simp
    · rw [Bool.not_eq_false] at h
      cases ps with
      | playing =>
        rw [onPlayerStateChange_playing s now ct h, handleVideoPlay_eq]
        split_ifs <;> simp
      | paused =>
        rw [onPlayerStateChange_paused s now ct h]
        cases hcp : s.currentPlayStartTime with
        | none => rw [handleVideoPause_none s now ct hcp]
        | some start =>
          rw [handleVideoPause_some s now ct start hcp]
          split_ifs
          · exact le_refl _
          · have := le_max_left (0 : ℚ) ((now - start) / 1000)
            simp only
            linarith
      | ended =>
        rw [onPlayerStateChange_ended s now ct h, handleVideoEnd_eq]
        split_ifs <;> simp
      | buffering =>
        rw [onPlayerStateChange_buffering s now ct h]
  | pollTick ct =>
    simp only [step]
    split_ifs with hd
    · exact le_refl _
    · exact le_of_eq (checkMilestones_fst_fields s ct).1.symm
  | teardown now =>
    simp only [step]
    by_cases h : s.isTrackingEnabled = false ∨ s.hasStartedOnce = false ∨
      s.hasReportedFinalResults = true
    · rw [reportFinalResults_guard s now h]
    · push_neg at h
      obtain ⟨h1, h2, h3⟩ := h
      rw [reportFinalResults_active s now (by simpa using h1) (by simpa using h2)
        (by simpa using h3)]
      split_ifs <;> simpa using trailingTotal_ge s now
  | enableTracking =>
    simp [step]

theorem run_total_mono (tr : List Input) (s : SessionState) :
    s.totalWatchTimeSeconds ≤ (run s tr).1.totalWatchTimeSeconds := by
  induction tr generalizing s with
  | nil => simp [run]
  | cons i tr ih =>
    rw [run_cons]
    exact (step_total_mono s i).trans (ih (step s i).1)

end GA4YT

/-- C3 (amended): in the GA4 YouTube tracker the accumulated watch time is
monotonically non-decreasing along every trace and changes only when leaving
an active play interval through `pause` (which adds the clamped interval
length and clears `currentPlayStartTime`) or through the first teardown
(which adds the clamped trailing-interval length but does not clear
`currentPlayStartTime`); an `ended` transition clears the open interval
without accumulating anything, and play, the milestone poll and
enable-tracking never change the total.  In the Mongo variant the `paused`
branch adds the position delta only when it is positive, and only in that
case clears `currentPlayStartTime`. -/
theorem watch_time_accumulation_amended :
    (∀ (s : GA4YT.SessionState) (tr : List GA4YT.Input),
        s.totalWatchTimeSeconds ≤ (GA4YT.run s tr).1.totalWatchTimeSeconds) ∧
    (∀ (s : GA4YT.SessionState) (now ct start : ℚ),
        s.currentPlayStartTime = some start → start ≠ 0 →
        (GA4YT.handleVideoPause s now ct).1.totalWatchTimeSeconds =
          s.totalWatchTimeSeconds + max 0 ((now - start) / 1000) ∧
        (GA4YT.handleVideoPause s now ct).1.currentPlayStartTime = none) ∧
    (∀ (s : GA4YT.SessionState) (now ct : ℚ),
        (GA4YT.handleVideoPlay s now ct).1.totalWatchTimeSeconds =
          s.totalWatchTimeSeconds ∧
        (GA4YT.handleVideoEnd s ct).1.totalWatchTimeSeconds =
          s.totalWatchTimeSeconds ∧
        (GA4YT.handleVideoEnd s ct).1.currentPlayStartTime = none ∧
        (GA4YT.checkMilestones s ct).1.totalWatchTimeSeconds =
          s.totalWatchTimeSeconds ∧
        (GA4YT.step s GA4YT.Input.enableTracking).1.totalWatchTimeSeconds =
          s.totalWatchTimeSeconds) ∧
    (∀ (s : GA4YT.SessionState) (now : ℚ),
        s.isTrackingEnabled = true → s.hasStartedOnce = true →
        s.hasReportedFinalResults = false →
        (GA4YT.reportFinalResults s now).1.totalWatchTimeSeconds =
          GA4YT.trailingTotal s now ∧
        (GA4YT.reportFinalResults s now).1.currentPlayStartTime =
          s.currentPlayStartTime) ∧
    (∀ (s : MongoFV.VideoState) (now ct start : ℚ) (muted : Bool),
        s.isTrackingEnabled = true → s.currentPlayStartTime = some start →
        (0 < ct - start →
          MongoFV.onPlayerStateChange s PlayerState.paused now ct muted =
            ({ s with
                totalWatchTimeSeconds := s.totalWatchTimeSeconds + (ct - start),
                currentPlayStartTime := none },
             [MOut.feedVideoWatchTime (s.totalWatchTimeSeconds + (ct - start))])) ∧
        (¬ 0 < ct - start →
          MongoFV.onPlayerStateChange s PlayerState.paused now ct muted = (s, []))) := by
  refine ⟨?_, ?_, ?_, ?_, ?_⟩
  · exact fun s tr => GA4YT.run_total_mono tr s
  · intro s now ct start hcp hz
    rw [GA4YT.handleVideoPause_some s now ct start hcp, if_neg hz]
    exact ⟨rfl, rfl⟩
  · intro s now ct
    refine ⟨?_, ?_, ?_, (GA4YT.checkMilestones_fst_fields s ct).1, rfl⟩
    · rw [GA4YT.handleVideoPlay_eq]
      split_ifs <;> rfl
    · rw [GA4YT.handleVideoEnd_eq]
      split_ifs <;> rfl
    · rw [GA4YT.handleVideoEnd_eq]
      split_ifs <;> rfl
  · intro s now h1 h2 h3
    rw [GA4YT.reportFinalResults_active s now h1 h2 h3]
    split_ifs <;> exact ⟨rfl, rfl⟩
  · intro s now ct start muted h hcp
    rw [MongoFV.onPlayerStateChange_paused_some s now ct start muted h hcp]
    constructor
    · intro hw
      rw [if_pos hw]
    · intro hw
      rw [if_neg hw]

/-- Witness for `watch_time_accumulation_amended`: a pause 10 wall-clock
seconds after the recorded play start adds exactly 10 clamped seconds and
clears the open interval. -/
theorem watch_time_accumulation_witness :
    (GA4YT.handleVideoPause
      { GA4YT.initState 100 with
          isTrackingEnabled := true, hasStartedOnce := true,
          currentPlayStartTime := some 1000 } 11000 10).1.totalWatchTimeSeconds =
      (GA4YT.initState 100).totalWatchTimeSeconds + max 0 ((11000 - 1000) / 1000) ∧
    (GA4YT.handleVideoPause
      { GA4YT.initState 100 with
          isTrackingEnabled := true, hasStartedOnce := true,
          currentPlayStartTime := some 1000 } 11000 10).1.currentPlayStartTime =
      none :=
  watch_time_accumulation_amended.2.1
    { GA4YT.initState 100 with
        isTrackingEnabled := true, hasStartedOnce := true,
        currentPlayStartTime := some 1000 } 11000 10 1000 rfl (by norm_num)

/-- The watch-time value claim C3 asserts, read off the input trace alone:
a play transition opens an interval at its wall-clock reading (overwriting
any open one), and a pause, ended or teardown reading closes the open
interval, contributing its length in seconds, clamped at 0 per interval.
This definition follows the claim's words, not the code; the counterexample
below separates the two. -/
def specClampedIntervalSum : Option ℚ → List GA4YT.Input → ℚ
  | _, [] => 0
  | _, GA4YT.Input.stateChange PlayerState.playing now _ :: tr =>
      specClampedIntervalSum (some now) tr
  | o, GA4YT.Input.stateChange PlayerState.paused now _ :: tr =>
      (match o with
       | some t0 => max 0 ((now - t0) / 1000)
       | none => 0) + specClampedIntervalSum none tr
  | o, GA4YT.Input.stateChange PlayerState.ended now _ :: tr =>
      (match o with
       | some t0 => max 0 ((now - t0) / 1000)
       | none => 0) + specClampedIntervalSum none tr
  | o, GA4YT.Input.teardown now :: tr =>
      (match o with
       | some t0 => max 0 ((now - t0) / 1000)
       | none => 0) + specClampedIntervalSum none tr
  | o, _ :: tr => specClampedIntervalSum o tr

/-- C3 counterexample: after tap-to-start, play at wall clock 1000 ms and
ended at wall clock 11000 ms followed by a teardown, the claim's sum over
completed play intervals is 10 seconds, but the accumulated watch-time field
after teardown is 0 — the interval completed by `ended` is discarded by the
code. -/
theorem ended_interval_discarded_after_teardown_cex :
    (GA4YT.run (GA4YT.initState 100)
      [GA4YT.Input.enableTracking,
       GA4YT.Input.stateChange PlayerState.playing 1000 0,
       GA4YT.Input.stateChange PlayerState.ended 11000 10,
       GA4YT.Input.teardown 12000]).1.totalWatchTimeSeconds = 0 ∧
    specClampedIntervalSum none
      [GA4YT.Input.enableTracking,
       GA4YT.Input.stateChange PlayerState.playing 1000 0,
       GA4YT.Input.stateChange PlayerState.ended 11000 10,
       GA4YT.Input.teardown 12000] = 10 ∧ (0 : ℚ) ≠ 10 := by
  norm_num [GA4YT.run, GA4YT.step, GA4YT.onPlayerStateChange,
    GA4YT.handleVideoPlay, GA4YT.handleVideoEnd, GA4YT.reportFinalResults,
    GA4YT.trailingTotal, GA4YT.initState, specClampedIntervalSum, jround]

/-! ### Claim C6 -/

namespace MongoFV

theorem handleUnload_emits_one_summary (s : VideoState) (ct : ℚ)
    (h1 : s.isTrackingEnabled = true) (h2 : s.hasStartedOnce = true) :
    countP isSummaryEv (handleUnload s ct).2 = 1 := by
  unfold handleUnload
  rw [if_neg (by simp [h1, h2])]
  cases hcp : s.currentPlayStartTime with
  | none => simp [trackVideoSummary, countP, isSummaryEv, List.filter]
  | some start =>
    dsimp only
    split_ifs <;> simp [trackVideoSummary, countP, isSummaryEv, List.filter]

end MongoFV

/-- C6 (amended): the GA4 YouTube tracker's `reportFinalResults` skips the
final summary exactly when the rounded total watch time (including the
trailing open interval) is 0, and emits exactly one `video_session_complete`
when it is positive — given tracking enabled, a started video and no earlier
report.  The Mongo feed-video tracker's `handleUnload`, by contrast, emits
its `feed_video_summary` on every invocation with tracking enabled and a
started video, regardless of the watch time. -/
theorem zero_watch_skip_amended :
    (∀ (s : GA4YT.SessionState) (now : ℚ),
        s.isTrackingEnabled = true → s.hasStartedOnce = true →
        s.hasReportedFinalResults = false →
        (jround (GA4YT.trailingTotal s now) ≤ 0 →
          (GA4YT.reportFinalResults s now).2 = []) ∧
        (0 < jround (GA4YT.trailingTotal s now) →
          countP isSessionCompleteEv (GA4YT.reportFinalResults s now).2 = 1)) ∧
    (∀ (s : MongoFV.VideoState) (ct : ℚ),
        s.isTrackingEnabled = true → s.hasStartedOnce = true →
        countP isSummaryEv (MongoFV.handleUnload s ct).2 = 1) := by
  constructor
  · intro s now h1 h2 h3
    rw [GA4YT.reportFinalResults_active s now h1 h2 h3]
    by_cases hpos : 0 < jround (GA4YT.trailingTotal s now)
    · rw [if_pos hpos]
      constructor
      · intro hle
        exact absurd hpos (not_lt.mpr hle)
      · intro _
        simp [countP, isSessionCompleteEv, List.filter]
    · rw [if_neg hpos]
      constructor
      · intro _
        rfl
      · intro hp
        exact absurd hp hpos
  · exact fun s ct h1 h2 => MongoFV.handleUnload_emits_one_summary s ct h1 h2

/-- Witness for `zero_watch_skip_amended`: a first teardown of a started
session that never accumulated any watch time emits nothing. -/
theorem zero_watch_skip_witness :
    (GA4YT.reportFinalResults
      { GA4YT.initState 100 with
          isTrackingEnabled := true, hasStartedOnce := true } 5).2 = [] :=
  (zero_watch_skip_amended.1
    { GA4YT.initState 100 with
        isTrackingEnabled := true, hasStartedOnce := true } 5 rfl rfl rfl).1
    (by norm_num [GA4YT.trailingTotal, GA4YT.initState, jround])

/-- C6 counterexample: the claim is false for the Mongo feed-video tracker.
A session that plays at position 0 and is unloaded at position 0 has rounded
total watch seconds 0, yet `handleUnload` still emits the
`feed_video_summary` (with `total_watch_time_seconds = 0`). -/
theorem mongo_zero_watch_summary_emitted_cex :
    (MongoFV.run (MongoFV.initState 100)
      [MongoFV.MInput.enableTracking,
       MongoFV.MInput.stateChange PlayerState.playing 0 0 false,
       MongoFV.MInput.unload 0]).2 =
      [MOut.feedVideoStart 100, MOut.feedVideoSummary 0 100 0 1 0 [] 0] := by
  norm_num [MongoFV.run, MongoFV.step, MongoFV.onPlayerStateChange,
    MongoFV.handleUnload, MongoFV.trackVideoSummary, MongoFV.initState, jround]

/-! ### Claim C8 -/

theorem jround_zero : jround 0 = 0 := by norm_num [jround]

namespace GA4YT

theorem step_duration_eq (s : SessionState) (i : Input) :
    (step s i).1.duration = s.duration := by
  cases i with
  | stateChange ps now ct =>
    simp only [step]
    by_cases h : s.isTrackingEnabled = false
    · rw [onPlayerStateChange_disabled s ps now ct h]
      split_ifs <;> rfl
    · rw [Bool.not_eq_false] at h
      cases ps with
      | playing =>
        rw [onPlayerStateChange_playing s now ct h, handleVideoPlay_eq]
        split_ifs <;> rfl
      | paused =>
        rw [onPlayerStateChange_paused s now ct h]
        cases hcp : s.currentPlayStartTime with
        | none => rw [handleVideoPause_none s now ct hcp]
        | some start =>
          rw [handleVideoPause_some s now ct start hcp]
          split_ifs <;> rfl
      | ended =>
        rw [onPlayerStateChange_ended s now ct h, handleVideoEnd_eq]
        split_ifs <;> rfl
      | buffering =>
        rw [onPlayerStateChange_buffering s now ct h]
  | pollTick ct =>
    simp only [step]
    split_ifs with hd
    · rfl
    · exact (checkMilestones_fst_fields s ct).2.2.1
  | teardown now =>
    simp only [step]
    by_cases h : s.isTrackingEnabled = false ∨ s.hasStartedOnce = false ∨
      s.hasReportedFinalResults = true
    · rw [reportFinalResults_guard s now h]
    · push_neg at h
      obtain ⟨h1, h2, h3⟩ := h
      rw [reportFinalResults_active s now (by simpa using h1) (by simpa using h2)
        (by simpa using h3)]
      split_ifs <;> rfl
  | enableTracking => rfl

theorem step_no_small_progress (s : SessionState) (i : Input) (m : ℕ)
    (hd : s.duration = 0) (hm : m ≠ 100) :
    countP (isProgressEv m) (step s i).2 = 0 := by
  have hb : (100 == m) = false := by simp [Ne.symm hm]
  cases i with
  | stateChange ps now ct =>
    simp only [step]
    by_cases h : s.isTrackingEnabled = false
    · rw [onPlayerStateChange_disabled s ps now ct h]
      split_ifs <;> simp [countP, isProgressEv, List.filter]
    · rw [Bool.not_eq_false] at h
      cases ps with
      | playing =>
        rw [onPlayerStateChange_playing s now ct h, handleVideoPlay_eq]
        split_ifs <;> simp [countP, isProgressEv, List.filter]
      | paused =>
        rw [onPlayerStateChange_paused s now ct h]
        cases hcp : s.currentPlayStartTime with
        | none => rw [handleVideoPause_none s now ct hcp]; simp [countP]
        | some start =>
          rw [handleVideoPause_some s now ct start hcp]
          split_ifs <;> simp [countP, isProgressEv, List.filter]
      | ended =>
        rw [onPlayerStateChange_ended s now ct h, handleVideoEnd_eq]
        split_ifs <;> simp [countP, isProgressEv, List.filter, hb]
      | buffering =>
        rw [onPlayerStateChange_buffering s now ct h]
        simp [countP]
  | pollTick ct =>
    simp only [step]
    rw [if_pos (le_of_eq hd)]
    simp [countP]
  | teardown now =>
    simp only [step]
    by_cases h : s.isTrackingEnabled = false ∨ s.hasStartedOnce = false ∨
      s.hasReportedFinalResults = true
    · rw [reportFinalResults_guard s now h]; simp [countP]
    · push_neg at h
      obtain ⟨h1, h2, h3⟩ := h
      rw [reportFinalResults_active s now (by simpa using h1) (by simpa using h2)
        (by simpa using h3)]
      split_ifs <;> simp [countP, isProgressEv, List.filter]
  | enableTracking =>
    simp [step, countP]

theorem run_no_small_progress (tr : List Input) (s : SessionState) (m : ℕ)
    (hd : s.duration = 0) (hm : m ≠ 100) :
    countP (isProgressEv m) (run s tr).2 = 0 := by
  induction tr generalizing s with
  | nil => simp [run, countP]
  | cons i tr ih =>
    rw [run_cons, countP_append]
    rw [step_no_small_progress s i m hd hm,
      ih (step s i).1 ((step_duration_eq s i).trans hd)]

end GA4YT

namespace MongoFV

theorem progressSweep_skip (pp : ℤ) (ct : ℚ) :
    ∀ (ms : List ℕ) (s : VideoState), (∀ m ∈ ms, ¬((m : ℤ) ≤ pp)) →
      progressSweep pp ct ms s = (s, []) := by
  intro ms
  induction ms with
  | nil => intro s _; rfl
  | cons a rest ih =>
    intro s hno
    simp only [progressSweep]
    rw [if_neg (by
      intro hc
      exact hno a (List.mem_cons_self a rest) hc.1)]
    exact ih s fun m hm => hno m (List.mem_cons_of_mem a hm)

theorem mongo_step_duration_eq (s : VideoState) (i : MInput) :
    (step s i).1.duration = s.duration := by
  cases i with
  | stateChange ps now ct muted =>
    simp only [step]
    by_cases h : s.isTrackingEnabled = false
    · rw [mongo_stateChange_disabled s ps now ct muted h]
    · rw [Bool.not_eq_false] at h
      cases ps with
      | playing =>
        rw [onPlayerStateChange_playing_eq s now ct muted h]
        split_ifs <;> rfl
      | paused =>
        cases hcp : s.currentPlayStartTime with
        | none => rw [onPlayerStateChange_paused_none s now ct muted h hcp]
        | some start =>
          rw [onPlayerStateChange_paused_some s now ct start muted h hcp]
          split_ifs <;> rfl
      | ended =>
        rw [onPlayerStateChange_ended_eq s now ct muted h]
        cases hcp : s.currentPlayStartTime with
        | none => dsimp only; split_ifs <;> rfl
        | some start => dsimp only; split_ifs <;> rfl
      | buffering =>
        rw [mongo_stateChange_buffering s now ct muted h]
  | pollTick ct =>
    simp only [step]
    by_cases h : s.isTrackingEnabled = false
    · rw [mongo_checkMilestones_disabled s ct h]
    · rw [Bool.not_eq_false] at h
      rw [checkMilestones_enabled s ct h]
      split_ifs <;> simp [(progressSweep_fields _ _ _ _).2.2.1]
  | unload ct =>
    simp only [step, handleUnload]
    split_ifs with hg
    · rfl
    · cases hcp : s.currentPlayStartTime with
      | none => simp [hcp]
      | some start =>
        simp only [hcp]
        split_ifs <;> rfl
  | visibilityHiddenSig ct =>
    simp only [step, visibilityHidden]
    cases hcp : s.currentPlayStartTime with
    | none => rfl
    | some start =>
      dsimp only
      split_ifs <;> rfl
  | enableTracking => rfl

theorem step_no_progress_of_duration_zero (s : VideoState) (i : MInput)
    (hd : s.duration = 0) :
    countP isAnyMProgressEv (step s i).2 = 0 := by
  cases i with
  | stateChange ps now ct muted =>
    simp only [step]
    by_cases h : s.isTrackingEnabled = false
    · rw [mongo_stateChange_disabled s ps now ct muted h]; simp [countP]
    · rw [Bool.not_eq_false] at h
      cases ps with
      | playing =>
        rw [onPlayerStateChange_playing_eq s now ct muted h]
        split_ifs <;> simp [countP, isAnyMProgressEv, List.filter]
      | paused =>
        cases hcp : s.currentPlayStartTime with
        | none =>
          rw [onPlayerStateChange_paused_none s now ct muted h hcp]
          simp [countP]
        | some start =>
          rw [onPlayerStateChange_paused_some s now ct start muted h hcp]
          split_ifs <;> simp [countP, isAnyMProgressEv, List.filter]
      | ended =>
        rw [onPlayerStateChange_ended_eq s now ct muted h]
        cases hcp : s.currentPlayStartTime with
        | none =>
          dsimp only
          split_ifs <;>
            simp [countP, isAnyMProgressEv, List.filter, trackVideoComplete]
        | some start =>
          dsimp only
          split_ifs <;>
            simp [countP, isAnyMProgressEv, List.filter, trackVideoComplete]
      | buffering =>
        rw [mongo_stateChange_buffering s now ct muted h]
        simp [countP]
  | pollTick ct =>
    simp only [step]
    by_cases h : s.isTrackingEnabled = false
    · rw [mongo_checkMilestones_disabled s ct h]; simp [countP]
    · rw [Bool.not_eq_false] at h
      rw [checkMilestones_enabled s ct h]
      rw [if_neg (by rw [hd]; exact lt_irrefl 0)]
      rw [progressSweep_skip 0 ct [25, 50, 75, 100] _ (by decide)]
      simp [countP]
  | unload ct =>
    simp only [step, handleUnload]
    split_ifs with hg
    · simp [countP]
    · cases hcp : s.currentPlayStartTime with
      | none => simp [hcp, trackVideoSummary, countP, isAnyMProgressEv, List.filter]
      | some start =>
        simp only [hcp]
        split_ifs <;>
          simp [trackVideoSummary, countP, isAnyMProgressEv, List.filter]
  | visibilityHiddenSig ct =>
    simp only [step, visibilityHidden]
    cases hcp : s.currentPlayStartTime with
    | none => simp [countP]
    | some start =>
      dsimp only
      simp [countP]
  | enableTracking =>
    simp [step, countP]

theorem run_no_progress_of_duration_zero (tr : List MInput) (s : VideoState)
    (hd : s.duration = 0) :
    countP isAnyMProgressEv (run s tr).2 = 0 := by
  induction tr generalizing s with
  | nil => simp [run, countP]
  | cons i tr ih =>
    rw [mrun_cons, countP_append]
    rw [step_no_progress_of_duration_zero s i hd,
      ih (step s i).1 ((mongo_step_duration_eq s i).trans hd)]

end MongoFV

/-- C8 (amended): with `durationSeconds = 0` for the entire session, the
polled milestone checks never fire — the GA4 YouTube tracker emits no
`video_progress` for 25/50/75 on any trace (its poll is never armed when the
duration is not positive) and the Mongo tracker emits no
`feed_video_progress` at all (its rounded percent is guarded to 0) — and the
guarded completion-rate computation degrades to 0: a duration-0 final report
carries `completion_rate_percent = 0`.  However, an `ended` signal still
makes the GA4 handlers emit the 100% milestone even with duration 0 (see the
counterexample), so the claim's "no milestone progress event is ever
emitted" holds only for the polled milestones; and the report's
`max_progress_percent` division has no zero guard in the source (JS yields
`NaN` there), so nothing is asserted about that field. -/
theorem duration_zero_degrades_amended :
    (∀ (s : GA4YT.SessionState) (tr : List GA4YT.Input) (m : ℕ),
        s.duration = 0 → m ≠ 100 →
        countP (isProgressEv m) (GA4YT.run s tr).2 = 0) ∧
    (∀ (s : MongoFV.VideoState) (tr : List MongoFV.MInput),
        s.duration = 0 →
        countP isAnyMProgressEv (MongoFV.run s tr).2 = 0) ∧
    (∀ (s : GA4YT.SessionState) (now : ℚ),
        s.duration = 0 → s.isTrackingEnabled = true → s.hasStartedOnce = true →
        s.hasReportedFinalResults = false →
        0 < jround (GA4YT.trailingTotal s now) →
        sessionCompleteRates (GA4YT.reportFinalResults s now).2 = [0]) := by
  refine ⟨?_, ?_, ?_⟩
  · exact fun s tr m hd hm => GA4YT.run_no_small_progress tr s m hd hm
  · exact fun s tr hd => MongoFV.run_no_progress_of_duration_zero tr s hd
  · intro s now hd h1 h2 h3 hpos
    rw [GA4YT.reportFinalResults_active s now h1 h2 h3, if_pos hpos]
    simp [sessionCompleteRates, List.filterMap, hd, jround_zero]

/-- Witness for `duration_zero_degrades_amended`: a poll tick in a
duration-0 session emits no 25% milestone. -/
theorem duration_zero_degrades_witness :
    countP (isProgressEv 25)
      (GA4YT.run (GA4YT.initState 0) [GA4YT.Input.pollTick 5]).2 = 0 :=
  duration_zero_degrades_amended.1 (GA4YT.initState 0)
    [GA4YT.Input.pollTick 5] 25 rfl (by decide)

/-- C8 counterexample: the claim as stated is false.  With duration 0 for
the entire session, play followed by an `ended` signal still emits the
milestone progress event for 100% in the GA4 YouTube tracker. -/
theorem duration_zero_end_still_emits_milestone_cex :
    (GA4YT.run (GA4YT.initState 0)
      [GA4YT.Input.enableTracking,
       GA4YT.Input.stateChange PlayerState.playing 1000 0,
       GA4YT.Input.stateChange PlayerState.ended 6000 0]).2 =
      [GOut.videoStart 0 1, GOut.videoPlay 0 1 false,
       GOut.videoProgress 100 0 1 0] := by
  norm_num [GA4YT.run, GA4YT.step, GA4YT.onPlayerStateChange,
    GA4YT.handleVideoPlay, GA4YT.handleVideoEnd, GA4YT.initState, jround]

/-! ### Claim C9 -/

/-- The completion-rate formula as the specification states it:
`clamp(0, 100, maxProgressSeconds / durationSeconds * 100)` with
`maxProgressSeconds` the high-water playback position in seconds, and 0 when
the duration is 0.  This follows the spec's words, for comparison with what
the code computes. -/
def specCompletionRate (maxProgressSeconds durationSeconds : ℚ) : ℚ :=
  if 0 < durationSeconds then
    min 100 (max 0 (maxProgressSeconds / durationSeconds * 100))
  else 0

/-- C9: the GA4 YouTube tracker stores a *percent* in `maxProgressReached`
(the poll assigns `progressPercent` to it) and then divides that percent by
the duration again in the final report.  In a duration-50 session whose
playback reached position 25 s (so `maxProgressReached = 50` percent), the
emitted `completion_rate_percent` is `min(100, 50/50*100) = 100`, while the
specification's `clamp(0,100, maxProgressSeconds/duration*100)` is
`25/50*100 = 50`. -/
theorem completion_rate_unit_bug_eval :
    sessionCompleteRates
      (GA4YT.run (GA4YT.initState 50)
        [GA4YT.Input.enableTracking,
         GA4YT.Input.stateChange PlayerState.playing 1000 0,
         GA4YT.Input.pollTick 25,
         GA4YT.Input.stateChange PlayerState.paused 26000 25,
         GA4YT.Input.teardown 30000]).2 = [100] ∧
    jround (specCompletionRate 25 50) = 50 ∧ ((100 : ℤ) ≠ 50) := by
  norm_num [GA4YT.run, GA4YT.step, GA4YT.onPlayerStateChange,
    GA4YT.handleVideoPlay, GA4YT.handleVideoPause, GA4YT.checkMilestones,
    GA4YT.sweep, GA4YT.reportFinalResults, GA4YT.trailingTotal,
    GA4YT.initState, sessionCompleteRates, specCompletionRate, jround,
    List.filterMap]

/-! ### Claim C10 -/

namespace MongoFV

theorem progressSweep_mem_iff (pp : ℤ) (ct : ℚ) :
    ∀ (ms : List ℕ) (s : VideoState) (m : ℕ),
      m ∈ mongoMilestonesOf (progressSweep pp ct ms s).2 ↔
        (m ∈ ms ∧ (m : ℤ) ≤ pp ∧ m ∉ s.milestonesReached) := by
  intro ms
  induction ms with
  | nil =>
    intro s m
    simp [progressSweep, mongoMilestonesOf]
  | cons a rest ih =>
    intro s m
    simp only [progressSweep]
    split_ifs with h
    · have ht : trackVideoProgress s a ct =
          ({ s with milestonesReached := insert a s.milestonesReached },
           [MOut.feedVideoProgress a (jround ct)
              (jround s.totalWatchTimeSeconds)]) := by
        unfold trackVideoProgress
        rw [if_neg h.2]
      dsimp only
      rw [ht]
      dsimp only
      rw [mongoMilestonesOf, List.filterMap_append]
      simp only [List.mem_append]
      rw [← mongoMilestonesOf, ← mongoMilestonesOf]
      rw [ih { s with milestonesReached := insert a s.milestonesReached } m]
      by_cases hma : m = a
      · subst hma
        simp [mongoMilestonesOf, h.1, h.2]
      · simp only [mongoMilestonesOf, List.filterMap, List.mem_cons,
          List.not_mem_nil, or_false, Finset.mem_insert, List.mem_cons]
        constructor
        · intro hx
          rcases hx with hx | hx
          · exact absurd hx hma
          · exact ⟨Or.inr hx.1, hx.2.1, fun hs => hx.2.2 (Or.inr hs)⟩
        · intro ⟨hmem, hle, hst⟩
          rcases hmem with hmem | hmem
          · exact absurd hmem hma
          · exact Or.inr ⟨hmem, hle, fun hs => by
              rcases hs with hs | hs
              · exact hma hs
              · exact hst hs⟩
    · rw [ih s m]
      constructor
      · intro ⟨hr, hle, hst⟩
        exact ⟨List.mem_cons_of_mem a hr, hle, hst⟩
      · intro ⟨hmem, hle, hst⟩
        rcases List.mem_cons.mp hmem with heq | hr
        · subst heq
          exact absurd ⟨hle, hst⟩ h
        · exact ⟨hr, hle, hst⟩

end MongoFV

/-- C10: in the Mongo YouTube tracker the polled percent is rounded before
the threshold comparison, so with tracking enabled, a positive duration and
a milestone `m ∈ {25, 50, 75, 100}`, a poll tick at position `ct` fires the
milestone exactly when the raw percent `ct / duration * 100` is at least
`m - 0.5` (and the milestone was not yet reached) — e.g. already at 24.5% of
the duration for the 25% milestone. -/
theorem mongo_round_milestone_threshold
    (s : MongoFV.VideoState) (ct : ℚ) (m : ℕ)
    (he : s.isTrackingEnabled = true) (hd : 0 < s.duration)
    (hm : m ∈ ([25, 50, 75, 100] : List ℕ)) :
    m ∈ mongoMilestonesOf (MongoFV.checkMilestones s ct).2 ↔
      ((m : ℚ) - 1 / 2 ≤ ct / s.duration * 100 ∧ m ∉ s.milestonesReached) := by
  have hiff : ((m : ℤ) ≤ jround (ct / s.duration * 100)) ↔
      ((m : ℚ) - 1 / 2 ≤ ct / s.duration * 100) := by
    unfold jround
    rw [Int.le_floor]
    push_cast
    constructor <;> intro hx <;> linarith
  rw [MongoFV.checkMilestones_enabled s ct he, if_pos hd]
  by_cases hmx : s.maxProgressReached < ct
  · rw [if_pos hmx, MongoFV.progressSweep_mem_iff]
    simp [hm, hiff]
  · rw [if_neg hmx, MongoFV.progressSweep_mem_iff]
    simp [hm, hiff]

/-- Witness for `mongo_round_milestone_threshold`: at position 24.5 s of a
100 s video the rounded percent is 25, and indeed the 25% milestone fires
exactly because 24.5 ≥ 25 − 0.5. -/
theorem mongo_round_milestone_threshold_witness :
    25 ∈ mongoMilestonesOf
      (MongoFV.checkMilestones
        { MongoFV.initState 100 with isTrackingEnabled := true } (49 / 2)).2 ↔
      ((25 : ℚ) - 1 / 2 ≤ 49 / 2 / 100 * 100 ∧ 25 ∉ (∅ : Finset ℕ)) :=
  mongo_round_milestone_threshold
    { MongoFV.initState 100 with isTrackingEnabled := true } (49 / 2) 25 rfl
    (by norm_num [MongoFV.initState]) (by decide)
